import Mathlib

/-!
Verification development for the go-quake2 renderer core: the lightmap
atlas allocator (render/lightmap.go), the BSP visibility tree
(bsptree.go) and the surface builder (render/surface.go), shallowly
embedded in Lean 4.  Machine integers are modelled as Nat/Int and
float32/float64 arithmetic as exact rational arithmetic; Go panics
(out-of-range indexing) and nil returns are modelled with Option.
-/

namespace Quake2

/-! ## Lightmap atlas: render/lightmap.go -/

/-- The LIGHTMAP_SIZE constant from render/lightmap.go. -/
def LIGHTMAP_SIZE : Int := 512

/-- The X, Y, Width, Height fields of a LightmapNode. -/
structure Rect where
  x : Int
  y : Int
  width : Int
  height : Int
deriving DecidableEq, Repr

/-- Membership of an integer grid point in a rectangle (the texel at
column p.1 and row p.2 lies inside the rectangle). -/
def Rect.contains (r : Rect) (p : Int × Int) : Prop :=
  r.x ≤ p.1 ∧ p.1 < r.x + r.width ∧ r.y ≤ p.2 ∧ p.2 < r.y + r.height

instance (r : Rect) (p : Int × Int) : Decidable (r.contains p) := by
  unfold Rect.contains; infer_instance

/-- LightmapNode from render/lightmap.go.  In the Go code the children
slice `Nodes` is only ever empty or of length exactly two (the two
halves created by a split), so the embedding has a childless leaf
constructor and a two-child node constructor. -/
inductive LightmapNode where
  | leaf (r : Rect) (filled : Bool)
  | node (r : Rect) (c0 c1 : LightmapNode)
deriving DecidableEq, Repr

/-- The rectangle (X, Y, Width, Height fields) of a lightmap node. -/
def LightmapNode.rect : LightmapNode → Rect
  | .leaf r _ => r
  | .node r _ _ => r

/-- Termination measure for AllocateLightmapRect: a split of a leaf
always produces a child 0 that matches the requested width or the
requested height exactly, so the number of unmatched dimensions of the
leaf strictly decreases along the leaf-split recursion. -/
def lmMeasure (width height : Int) : LightmapNode → Nat
  | .leaf r _ =>
      (if r.width = width then 0 else 1) + (if r.height = height then 0 else 1)
  | .node _ c0 c1 => lmMeasure width height c0 + lmMeasure width height c1 + 1

/-- AllocateLightmapRect from render/lightmap.go.  The Go function
mutates the tree through pointers and returns a pointer to the
allocated node or nil; the embedding returns the updated tree together
with the rectangle of the allocated node (`none` models the nil
return). -/
def AllocateLightmapRect (node : LightmapNode) (width height : Int) :
    LightmapNode × Option Rect :=
  match node with
  | .node r c0 c1 =>
    -- Check child nodes if they exist
    let res0 := AllocateLightmapRect c0 width height
    match res0.2 with
    | some rect => (.node r res0.1 c1, some rect)
    | none =>
      let res1 := AllocateLightmapRect c1 width height
      (.node r res0.1 res1.1, res1.2)
  | .leaf r filled =>
    -- Already used
    if h1 : filled then (.leaf r filled, none)
    -- Too small
    else if h2 : r.width < width ∨ r.height < height then (.leaf r filled, none)
    -- Allocate if it is a perfect fit
    else if h3 : r.width = width ∧ r.height = height then (.leaf r true, some r)
    -- Split by width or height
    else if h4 : r.width - width > r.height - height then
      let res0 := AllocateLightmapRect
        (.leaf ⟨r.x, r.y, width, r.height⟩ false) width height
      (.node r res0.1 (.leaf ⟨r.x + width, r.y, r.width - width, r.height⟩ false),
        res0.2)
    else
      let res0 := AllocateLightmapRect
        (.leaf ⟨r.x, r.y, r.width, height⟩ false) width height
      (.node r res0.1 (.leaf ⟨r.x, r.y + height, r.width, r.height - height⟩ false),
        res0.2)
termination_by lmMeasure width height node
decreasing_by
  · simp only [lmMeasure]; omega
  · simp only [lmMeasure]; omega
  · have hw : r.width ≠ width := by omega
    simp [lmMeasure, hw]
  · have hh : r.height ≠ height := by
      rcases Decidable.em (r.height = height) with h | h
      · exact absurd ⟨by omega, h⟩ h3
      · exact h
    simp [lmMeasure, hh]

/-- The root node created by NewLightmap in render/lightmap.go: the
whole atlas as one free leaf. -/
def freshLightmapRoot : LightmapNode :=
  .leaf ⟨0, 0, LIGHTMAP_SIZE, LIGHTMAP_SIZE⟩ false

/-- Two rectangles partition a parent rectangle: together they cover
exactly the parent and they do not overlap. -/
def Rect.partitions (a b parent : Rect) : Prop :=
  (∀ p : Int × Int, a.contains p ∨ b.contains p ↔ parent.contains p) ∧
  (∀ p : Int × Int, ¬(a.contains p ∧ b.contains p))

/-- Structural invariant of the lightmap tree: every internal node has
exactly two children (enforced by the inductive shape) and the
children's rectangles partition the parent's rectangle. -/
def LightmapNode.wf : LightmapNode → Prop
  | .leaf _ _ => True
  | .node r c0 c1 => Rect.partitions c0.rect c1.rect r ∧ c0.wf ∧ c1.wf

/-- The rectangles of all leaves of a lightmap tree, left to right. -/
def LightmapNode.leafRects : LightmapNode → List Rect
  | .leaf r _ => [r]
  | .node _ c0 c1 => c0.leafRects ++ c1.leafRects

/-- The rectangles of the filled (allocated) leaves of a lightmap tree. -/
def LightmapNode.filledRects : LightmapNode → List Rect
  | .leaf r filled => if filled then [r] else []
  | .node _ c0 c1 => c0.filledRects ++ c1.filledRects

/-- Splitting a free rectangle at a nonnegative width that fits yields a
partition into the left part and the remainder. -/
lemma partitions_split_width (x y rw rh w : Int) (h0 : 0 ≤ w) (h1 : w ≤ rw) :
    Rect.partitions ⟨x, y, w, rh⟩ ⟨x + w, y, rw - w, rh⟩ ⟨x, y, rw, rh⟩ := by
  constructor
  · intro p; simp only [Rect.contains]; omega
  · intro p; simp only [Rect.contains]; omega

/-- Splitting a free rectangle at a nonnegative height that fits yields
a partition into the top part and the remainder. -/
lemma partitions_split_height (x y rw rh h : Int) (h0 : 0 ≤ h) (h1 : h ≤ rh) :
    Rect.partitions ⟨x, y, rw, h⟩ ⟨x, y + h, rw, rh - h⟩ ⟨x, y, rw, rh⟩ := by
  constructor
  · intro p; simp only [Rect.contains]; omega
  · intro p; simp only [Rect.contains]; omega

/-- Branch equation: an internal node delegates to child 0 first and
returns its successful allocation. -/
lemma alloc_node_some (r : Rect) (c0 c1 : LightmapNode) (w h : Int)
    (rect : Rect) (hsome : (AllocateLightmapRect c0 w h).2 = some rect) :
    AllocateLightmapRect (.node r c0 c1) w h =
      (.node r (AllocateLightmapRect c0 w h).1 c1, some rect) := by
  conv_lhs => rw [AllocateLightmapRect]
  simp only [hsome]

/-- Branch equation: an internal node tries child 1 only when child 0
fails, and returns child 1's result. -/
lemma alloc_node_none (r : Rect) (c0 c1 : LightmapNode) (w h : Int)
    (hnone : (AllocateLightmapRect c0 w h).2 = none) :
    AllocateLightmapRect (.node r c0 c1) w h =
      (.node r (AllocateLightmapRect c0 w h).1 (AllocateLightmapRect c1 w h).1,
        (AllocateLightmapRect c1 w h).2) := by
  conv_lhs => rw [AllocateLightmapRect]
  simp only [hnone]

/-- Branch equation: a filled leaf always fails. -/
lemma alloc_leaf_filled (r : Rect) (w h : Int) :
    AllocateLightmapRect (.leaf r true) w h = (.leaf r true, none) := by
  conv_lhs => rw [AllocateLightmapRect]
  simp only [dite_true]

/-- Branch equation: a free leaf smaller than the request in either
dimension fails. -/
lemma alloc_leaf_small (r : Rect) (w h : Int)
    (hsmall : r.width < w ∨ r.height < h) :
    AllocateLightmapRect (.leaf r false) w h = (.leaf r false, none) := by
  conv_lhs => rw [AllocateLightmapRect]
  simp only [hsmall, Bool.false_eq_true, dite_false, dite_true]

/-- Branch equation: an exactly matching free leaf is marked filled and
returned. -/
lemma alloc_leaf_exact (r : Rect) (w h : Int)
    (hexact : r.width = w ∧ r.height = h) :
    AllocateLightmapRect (.leaf r false) w h = (.leaf r true, some r) := by
  obtain ⟨hw, hh⟩ := hexact
  subst hw
  subst hh
  conv_lhs => rw [AllocateLightmapRect]
  simp

/-- Branch equation: when the width slack exceeds the height slack, a
free non-matching leaf splits by width — child 0 takes the requested
width, child 1 the remainder — and the request recurses into child 0. -/
lemma alloc_leaf_split_w (r : Rect) (w h : Int)
    (hsmall : ¬(r.width < w ∨ r.height < h))
    (hexact : ¬(r.width = w ∧ r.height = h))
    (hslack : r.width - w > r.height - h) :
    AllocateLightmapRect (.leaf r false) w h =
      (.node r
        (AllocateLightmapRect (.leaf ⟨r.x, r.y, w, r.height⟩ false) w h).1
        (.leaf ⟨r.x + w, r.y, r.width - w, r.height⟩ false),
       (AllocateLightmapRect (.leaf ⟨r.x, r.y, w, r.height⟩ false) w h).2) := by
  conv_lhs => rw [AllocateLightmapRect]
  simp only [hsmall, hexact, hslack, Bool.false_eq_true, dite_false, dite_true]

/-- Branch equation: otherwise a free non-matching leaf splits by
height — child 0 takes the requested height, child 1 the remainder —
and the request recurses into child 0. -/
lemma alloc_leaf_split_h (r : Rect) (w h : Int)
    (hsmall : ¬(r.width < w ∨ r.height < h))
    (hexact : ¬(r.width = w ∧ r.height = h))
    (hslack : ¬(r.width - w > r.height - h)) :
    AllocateLightmapRect (.leaf r false) w h =
      (.node r
        (AllocateLightmapRect (.leaf ⟨r.x, r.y, r.width, h⟩ false) w h).1
        (.leaf ⟨r.x, r.y + h, r.width, r.height - h⟩ false),
       (AllocateLightmapRect (.leaf ⟨r.x, r.y, r.width, h⟩ false) w h).2) := by
  conv_lhs => rw [AllocateLightmapRect]
  simp only [hsmall, hexact, hslack, Bool.false_eq_true, dite_false, dite_true]

/-- Allocation never changes the rectangle of the node it is called
on: the Go function only mutates Filled flags and appends children. -/
lemma AllocateLightmapRect_rect (node : LightmapNode) (width height : Int) :
    ((AllocateLightmapRect node width height).1).rect = node.rect := by
  induction node, width, height using AllocateLightmapRect.induct with
  | case1 width height r c0 c1 res0 rect hsome ih =>
    rw [alloc_node_some r c0 c1 width height rect hsome]; rfl
  | case2 width height r c0 c1 res0 hnone ih0 ih1 =>
    rw [alloc_node_none r c0 c1 width height hnone]; rfl
  | case3 width height r =>
    rw [alloc_leaf_filled r width height]
  | case4 width height r filled hf hsmall =>
    cases filled
    · rw [alloc_leaf_small r width height hsmall]
    · exact absurd rfl hf
  | case5 width height r filled hf hsmall hexact =>
    cases filled
    · rw [alloc_leaf_exact r width height hexact]; rfl
    · exact absurd rfl hf
  | case6 width height r filled hf hsmall hexact hslack ih =>
    cases filled
    · rw [alloc_leaf_split_w r width height hsmall hexact hslack]; rfl
    · exact absurd rfl hf
  | case7 width height r filled hf hsmall hexact hslack ih =>
    cases filled
    · rw [alloc_leaf_split_h r width height hsmall hexact hslack]; rfl
    · exact absurd rfl hf

/-- Allocation with nonnegative requested dimensions preserves the
partition invariant. -/
lemma AllocateLightmapRect_wf (node : LightmapNode) (width height : Int)
    (hw : 0 ≤ width) (hh : 0 ≤ height) (hwf : node.wf) :
    ((AllocateLightmapRect node width height).1).wf := by
  induction node, width, height using AllocateLightmapRect.induct with
  | case1 width height r c0 c1 res0 rect hsome ih =>
    rw [alloc_node_some r c0 c1 width height rect hsome]
    obtain ⟨hpart, hwf0, hwf1⟩ := hwf
    refine ⟨?_, ih hw hh hwf0, hwf1⟩
    rwa [AllocateLightmapRect_rect]
  | case2 width height r c0 c1 res0 hnone ih0 ih1 =>
    rw [alloc_node_none r c0 c1 width height hnone]
    obtain ⟨hpart, hwf0, hwf1⟩ := hwf
    refine ⟨?_, ih0 hw hh hwf0, ih1 hw hh hwf1⟩
    rw [AllocateLightmapRect_rect, AllocateLightmapRect_rect]
    exact hpart
  | case3 width height r =>
    rw [alloc_leaf_filled r width height]
    exact hwf
  | case4 width height r filled hf hsmall =>
    cases filled
    · rw [alloc_leaf_small r width height hsmall]; exact hwf
    · exact absurd rfl hf
  | case5 width height r filled hf hsmall hexact =>
    cases filled
    · rw [alloc_leaf_exact r width height hexact]; trivial
    · exact absurd rfl hf
  | case6 width height r filled hf hsmall hexact hslack ih =>
    cases filled
    · rw [alloc_leaf_split_w r width height hsmall hexact hslack]
      refine ⟨?_, ih hw hh trivial, trivial⟩
      rw [AllocateLightmapRect_rect]
      simp only [LightmapNode.rect]
      exact partitions_split_width r.x r.y r.width r.height width hw (by omega)
    · exact absurd rfl hf
  | case7 width height r filled hf hsmall hexact hslack ih =>
    cases filled
    · rw [alloc_leaf_split_h r width height hsmall hexact hslack]
      refine ⟨?_, ih hw hh trivial, trivial⟩
      rw [AllocateLightmapRect_rect]
      simp only [LightmapNode.rect]
      exact partitions_split_height r.x r.y r.width r.height height hh (by omega)
    · exact absurd rfl hf

/-- In a well-formed tree the leaf rectangles tile the root rectangle:
every point inside the root lies in exactly one leaf rectangle and
every point outside it lies in none. -/
lemma wf_leafRects_countP (t : LightmapNode) (p : Int × Int) (hwf : t.wf) :
    t.leafRects.countP (fun r => decide (r.contains p)) =
      if t.rect.contains p then 1 else 0 := by
  induction t with
  | leaf r filled =>
    simp only [LightmapNode.leafRects, LightmapNode.rect,
      List.countP_cons, List.countP_nil]
    by_cases hp : r.contains p <;> simp [hp]
  | node r c0 c1 ih0 ih1 =>
    obtain ⟨⟨hcover, hdisj⟩, hwf0, hwf1⟩ := hwf
    have hc := hcover p
    have hd := hdisj p
    simp only [LightmapNode.leafRects, List.countP_append, ih0 hwf0, ih1 hwf1]
    show ((if c0.rect.contains p then 1 else 0) +
        if c1.rect.contains p then 1 else 0) =
      if r.contains p then 1 else 0
    by_cases h0 : c0.rect.contains p
    · have h1 : ¬c1.rect.contains p := fun h1 => hd ⟨h0, h1⟩
      have hr : r.contains p := hc.mp (Or.inl h0)
      simp [h0, h1, hr]
    · by_cases h1 : c1.rect.contains p
      · have hr : r.contains p := hc.mp (Or.inr h1)
        simp [h0, h1, hr]
      · have hr : ¬r.contains p := fun hr => (hc.mpr hr).elim h0 h1
        simp [h0, h1, hr]

/-- A list of rectangles in which no point is counted twice is pairwise
disjoint. -/
lemma pairwise_disjoint_of_countP (l : List Rect)
    (hcount : ∀ p : Int × Int, l.countP (fun r => decide (r.contains p)) ≤ 1) :
    l.Pairwise (fun a b => ∀ p, ¬(a.contains p ∧ b.contains p)) := by
  induction l with
  | nil => simp
  | cons a l ih =>
    refine List.Pairwise.cons ?_ (ih ?_)
    · rintro b hb p ⟨hpa, hpb⟩
      have hc := hcount p
      have hpa2 : (decide (a.contains p)) = true := by simp [hpa]
      rw [List.countP_cons_of_pos (fun r => decide (r.contains p)) l hpa2] at hc
      have hzero : l.countP (fun r => decide (r.contains p)) = 0 := by omega
      rw [List.countP_eq_zero] at hzero
      exact hzero b hb (by simp [hpb])
    · intro p
      have hc := hcount p
      rw [List.countP_cons] at hc
      omega

/-- The filled leaf rectangles are a sublist of all leaf rectangles. -/
lemma filledRects_sublist (t : LightmapNode) :
    t.filledRects.Sublist t.leafRects := by
  induction t with
  | leaf r filled =>
    by_cases hf : filled <;>
      simp [LightmapNode.filledRects, LightmapNode.leafRects, hf]
  | node r c0 c1 ih0 ih1 =>
    exact List.Sublist.append ih0 ih1

/-- Folding a sequence of allocations over a well-formed tree keeps it
well-formed and keeps the root rectangle. -/
lemma foldl_alloc_wf (reqs : List (Int × Int))
    (hreq : ∀ q ∈ reqs, 0 ≤ q.1 ∧ 0 ≤ q.2) (t : LightmapNode) (hwf : t.wf) :
    (reqs.foldl (fun t q => (AllocateLightmapRect t q.1 q.2).1) t).wf ∧
    (reqs.foldl (fun t q => (AllocateLightmapRect t q.1 q.2).1) t).rect =
      t.rect := by
  induction reqs generalizing t with
  | nil => exact ⟨hwf, rfl⟩
  | cons q reqs ih =>
    have hq := hreq q (List.mem_cons_self q reqs)
    have hrest : ∀ q2 ∈ reqs, 0 ≤ q2.1 ∧ 0 ≤ q2.2 := fun q2 hq2 =>
      hreq q2 (List.mem_cons_of_mem q hq2)
    simp only [List.foldl_cons]
    obtain ⟨hwf2, hrect2⟩ := ih hrest ((AllocateLightmapRect t q.1 q.2).1)
      (AllocateLightmapRect_wf t q.1 q.2 hq.1 hq.2 hwf)
    exact ⟨hwf2, hrect2.trans (AllocateLightmapRect_rect t q.1 q.2)⟩

/-- C5: after any sequence of allocation requests with nonnegative
dimensions on a fresh atlas tree, every internal node's two children
partition its rectangle exactly, the leaf rectangles tile the root
rectangle with no gap and no overlap, and no two filled leaf
rectangles overlap. -/
theorem C5_allocate_sequence_invariant (reqs : List (Int × Int))
    (hreq : ∀ q ∈ reqs, 0 ≤ q.1 ∧ 0 ≤ q.2) :
    (reqs.foldl (fun t q => (AllocateLightmapRect t q.1 q.2).1)
        freshLightmapRoot).wf ∧
    (∀ p : Int × Int,
      ((reqs.foldl (fun t q => (AllocateLightmapRect t q.1 q.2).1)
          freshLightmapRoot).leafRects.countP (fun r => decide (r.contains p))) =
        if Rect.contains ⟨0, 0, LIGHTMAP_SIZE, LIGHTMAP_SIZE⟩ p then 1 else 0) ∧
    ((reqs.foldl (fun t q => (AllocateLightmapRect t q.1 q.2).1)
        freshLightmapRoot).filledRects.Pairwise
      (fun a b => ∀ p, ¬(a.contains p ∧ b.contains p))) := by
  obtain ⟨hwf, hrect⟩ :=
    foldl_alloc_wf reqs hreq freshLightmapRoot (by trivial)
  have hcount := fun p => wf_leafRects_countP _ p hwf
  rw [hrect] at hcount
  refine ⟨hwf, hcount, ?_⟩
  refine List.Pairwise.sublist (filledRects_sublist _) ?_
  apply pairwise_disjoint_of_countP
  intro p
  rw [hcount p]
  split <;> omega

/-- Witness for C5 at a concrete request sequence. -/
theorem C5_allocate_sequence_invariant_witness :
    (([((100 : Int), (50 : Int)), (256, 512)].foldl
        (fun t q => (AllocateLightmapRect t q.1 q.2).1) freshLightmapRoot).wf ∧
    (∀ p : Int × Int,
      (([((100 : Int), (50 : Int)), (256, 512)].foldl
          (fun t q => (AllocateLightmapRect t q.1 q.2).1)
          freshLightmapRoot).leafRects.countP (fun r => decide (r.contains p))) =
        if Rect.contains ⟨0, 0, LIGHTMAP_SIZE, LIGHTMAP_SIZE⟩ p then 1 else 0) ∧
    (([((100 : Int), (50 : Int)), (256, 512)].foldl
        (fun t q => (AllocateLightmapRect t q.1 q.2).1)
        freshLightmapRoot).filledRects.Pairwise
      (fun a b => ∀ p, ¬(a.contains p ∧ b.contains p)))) :=
  C5_allocate_sequence_invariant [(100, 50), (256, 512)] (by decide)

/-- After a width split, child 0 has exactly the requested width and
enough height, so allocating into it succeeds and returns the top-left
sub-rectangle of the requested size. -/
lemma alloc_fits_height (x y w rh h : Int) (hrh : h ≤ rh) :
    (AllocateLightmapRect (.leaf ⟨x, y, w, rh⟩ false) w h).2 =
      some ⟨x, y, w, h⟩ := by
  by_cases heq : rh = h
  · subst heq
    rw [alloc_leaf_exact ⟨x, y, w, rh⟩ w rh ⟨rfl, rfl⟩]
  · have hsmall : ¬((⟨x, y, w, rh⟩ : Rect).width < w ∨
        (⟨x, y, w, rh⟩ : Rect).height < h) := by simp; omega
    have hexact : ¬((⟨x, y, w, rh⟩ : Rect).width = w ∧
        (⟨x, y, w, rh⟩ : Rect).height = h) := by simp; omega
    have hslack : ¬((⟨x, y, w, rh⟩ : Rect).width - w >
        (⟨x, y, w, rh⟩ : Rect).height - h) := by simp; omega
    rw [alloc_leaf_split_h ⟨x, y, w, rh⟩ w h hsmall hexact hslack]
    exact congrArg Prod.snd (alloc_leaf_exact ⟨x, y, w, h⟩ w h ⟨rfl, rfl⟩)

/-- After a height split, child 0 has exactly the requested height and
enough width, so allocating into it succeeds and returns the top-left
sub-rectangle of the requested size. -/
lemma alloc_fits_width (x y rw2 h w : Int) (hrw : w ≤ rw2) :
    (AllocateLightmapRect (.leaf ⟨x, y, rw2, h⟩ false) w h).2 =
      some ⟨x, y, w, h⟩ := by
  by_cases heq : rw2 = w
  · subst heq
    rw [alloc_leaf_exact ⟨x, y, rw2, h⟩ rw2 h ⟨rfl, rfl⟩]
  · have hsmall : ¬((⟨x, y, rw2, h⟩ : Rect).width < w ∨
        (⟨x, y, rw2, h⟩ : Rect).height < h) := by simp; omega
    have hexact : ¬((⟨x, y, rw2, h⟩ : Rect).width = w ∧
        (⟨x, y, rw2, h⟩ : Rect).height = h) := by simp; omega
    have hslack : (⟨x, y, rw2, h⟩ : Rect).width - w >
        (⟨x, y, rw2, h⟩ : Rect).height - h := by simp; omega
    rw [alloc_leaf_split_w ⟨x, y, rw2, h⟩ w h hsmall hexact hslack]
    exact congrArg Prod.snd (alloc_leaf_exact ⟨x, y, w, h⟩ w h ⟨rfl, rfl⟩)

/-- C6: AllocateLightmapRect is the spec's first-fit scheme.  On an
internal node it recurses into child 0 first and tries child 1 only if
child 0 fails; a filled leaf or a too-small leaf fails; an exactly
matching free leaf is marked filled and returned; otherwise the leaf is
split along the axis with greater slack (width slack versus height
slack) into two children that reconstruct the parent, child 1 taking
the remainder, and recursing into child 0 with the same request
succeeds, yielding the top-left rectangle of the requested size. -/
theorem C6_first_fit_allocation :
    (∀ (r : Rect) (c0 c1 : LightmapNode) (w h : Int) (rect : Rect),
      (AllocateLightmapRect c0 w h).2 = some rect →
      AllocateLightmapRect (.node r c0 c1) w h =
        (.node r (AllocateLightmapRect c0 w h).1 c1, some rect)) ∧
    (∀ (r : Rect) (c0 c1 : LightmapNode) (w h : Int),
      (AllocateLightmapRect c0 w h).2 = none →
      AllocateLightmapRect (.node r c0 c1) w h =
        (.node r (AllocateLightmapRect c0 w h).1
          (AllocateLightmapRect c1 w h).1, (AllocateLightmapRect c1 w h).2)) ∧
    (∀ (r : Rect) (w h : Int),
      AllocateLightmapRect (.leaf r true) w h = (.leaf r true, none)) ∧
    (∀ (r : Rect) (w h : Int), r.width < w ∨ r.height < h →
      AllocateLightmapRect (.leaf r false) w h = (.leaf r false, none)) ∧
    (∀ (r : Rect) (w h : Int), r.width = w ∧ r.height = h →
      AllocateLightmapRect (.leaf r false) w h = (.leaf r true, some r)) ∧
    (∀ (r : Rect) (w h : Int),
      ¬(r.width < w ∨ r.height < h) → ¬(r.width = w ∧ r.height = h) →
      r.width - w > r.height - h →
      AllocateLightmapRect (.leaf r false) w h =
        (.node r
          (AllocateLightmapRect (.leaf ⟨r.x, r.y, w, r.height⟩ false) w h).1
          (.leaf ⟨r.x + w, r.y, r.width - w, r.height⟩ false),
         some ⟨r.x, r.y, w, h⟩)) ∧
    (∀ (r : Rect) (w h : Int),
      ¬(r.width < w ∨ r.height < h) → ¬(r.width = w ∧ r.height = h) →
      ¬(r.width - w > r.height - h) →
      AllocateLightmapRect (.leaf r false) w h =
        (.node r
          (AllocateLightmapRect (.leaf ⟨r.x, r.y, r.width, h⟩ false) w h).1
          (.leaf ⟨r.x, r.y + h, r.width, r.height - h⟩ false),
         some ⟨r.x, r.y, w, h⟩)) := by
  refine ⟨alloc_node_some, alloc_node_none, alloc_leaf_filled,
    alloc_leaf_small, alloc_leaf_exact, ?_, ?_⟩
  · intro r w h hsmall hexact hslack
    rw [alloc_leaf_split_w r w h hsmall hexact hslack,
      alloc_fits_height r.x r.y w r.height h (by omega)]
  · intro r w h hsmall hexact hslack
    rw [alloc_leaf_split_h r w h hsmall hexact hslack,
      alloc_fits_width r.x r.y r.width h w (by omega)]

/-- Witness for C6: each branch of the first-fit scheme exercised at a
concrete input. -/
theorem C6_first_fit_allocation_witness :
    (AllocateLightmapRect
        (.node ⟨0, 0, 4, 4⟩ (.leaf ⟨0, 0, 2, 4⟩ false) (.leaf ⟨2, 0, 2, 4⟩ false))
        2 4 =
      (.node ⟨0, 0, 4, 4⟩
        (AllocateLightmapRect (.leaf ⟨0, 0, 2, 4⟩ false) 2 4).1
        (.leaf ⟨2, 0, 2, 4⟩ false), some ⟨0, 0, 2, 4⟩)) ∧
    (AllocateLightmapRect
        (.node ⟨0, 0, 4, 4⟩ (.leaf ⟨0, 0, 2, 4⟩ true) (.leaf ⟨2, 0, 2, 4⟩ false))
        2 4 =
      (.node ⟨0, 0, 4, 4⟩
        (AllocateLightmapRect (.leaf ⟨0, 0, 2, 4⟩ true) 2 4).1
        (AllocateLightmapRect (.leaf ⟨2, 0, 2, 4⟩ false) 2 4).1,
        (AllocateLightmapRect (.leaf ⟨2, 0, 2, 4⟩ false) 2 4).2)) ∧
    (AllocateLightmapRect (.leaf ⟨0, 0, 4, 4⟩ true) 2 4 =
      (.leaf ⟨0, 0, 4, 4⟩ true, none)) ∧
    (AllocateLightmapRect (.leaf ⟨0, 0, 1, 1⟩ false) 2 1 =
      (.leaf ⟨0, 0, 1, 1⟩ false, none)) ∧
    (AllocateLightmapRect (.leaf ⟨0, 0, 2, 4⟩ false) 2 4 =
      (.leaf ⟨0, 0, 2, 4⟩ true, some ⟨0, 0, 2, 4⟩)) ∧
    (AllocateLightmapRect (.leaf ⟨0, 0, 8, 4⟩ false) 2 3 =
      (.node ⟨0, 0, 8, 4⟩
        (AllocateLightmapRect (.leaf ⟨0, 0, 2, 4⟩ false) 2 3).1
        (.leaf ⟨2, 0, 6, 4⟩ false), some ⟨0, 0, 2, 3⟩)) ∧
    (AllocateLightmapRect (.leaf ⟨0, 0, 4, 8⟩ false) 3 2 =
      (.node ⟨0, 0, 4, 8⟩
        (AllocateLightmapRect (.leaf ⟨0, 0, 4, 2⟩ false) 3 2).1
        (.leaf ⟨0, 2, 4, 6⟩ false), some ⟨0, 0, 3, 2⟩)) := by
  refine ⟨?_, ?_, ?_, ?_, ?_, ?_, ?_⟩
  · exact C6_first_fit_allocation.1 ⟨0, 0, 4, 4⟩ _ _ 2 4 ⟨0, 0, 2, 4⟩
      (by simp [AllocateLightmapRect])
  · exact C6_first_fit_allocation.2.1 ⟨0, 0, 4, 4⟩ _ _ 2 4
      (by simp [AllocateLightmapRect])
  · exact C6_first_fit_allocation.2.2.1 ⟨0, 0, 4, 4⟩ 2 4
  · exact C6_first_fit_allocation.2.2.2.1 ⟨0, 0, 1, 1⟩ 2 1 (by decide)
  · exact C6_first_fit_allocation.2.2.2.2.1 ⟨0, 0, 2, 4⟩ 2 4 (by decide)
  · exact C6_first_fit_allocation.2.2.2.2.2.1 ⟨0, 0, 8, 4⟩ 2 3
      (by decide) (by decide) (by decide)
  · exact C6_first_fit_allocation.2.2.2.2.2.2 ⟨0, 0, 4, 8⟩ 3 2
      (by decide) (by decide) (by decide)

/-! ## Level data: the q2file structures used by bsptree.go and the
surface builder -/

/-- Vertex from q2file (three float32 coordinates, modelled as exact
rationals). -/
structure Vertex where
  x : ℚ
  y : ℚ
  z : ℚ
deriving DecidableEq, Repr

/-- Edge from q2file: a pair of vertex indices (uint16). -/
structure EdgeRec where
  v1 : Nat
  v2 : Nat
deriving DecidableEq, Repr

/-- Plane from q2file: normal, distance and the axis-type tag
(float32 components modelled as rationals, Type is uint32). -/
structure Plane where
  normal : Fin 3 → ℚ
  distance : ℚ
  type : Nat

/-- BSPNode from q2file: splitting-plane index (uint32) and the two
signed child references (int32). -/
structure BSPNode where
  plane : Nat
  frontChild : Int
  backChild : Int
deriving DecidableEq, Repr

/-- BSPLeaf from q2file: cluster id (uint16) and the span into the
leaf-face table (uint16 fields). -/
structure BSPLeaf where
  cluster : Nat
  firstLeafFace : Nat
  numLeafFaces : Nat
deriving DecidableEq, Repr

/-- The fields of q2file.MapData consumed by the claims.  LeafFace is
int16 in the file format, so leaf-face entries are signed;
visibilityOffsets holds the Pvs field of each VisibilityOffset entry.
Only the length of the face array matters to these claims, kept as
numFaces. -/
structure MapData where
  vertices : List Vertex
  edges : List EdgeRec
  faceEdges : List Int
  numFaces : Nat
  nodes : List BSPNode
  planes : List Plane
  bspLeaves : List BSPLeaf
  leafFaces : List Int
  visibilityData : List Nat
  visibilityOffsets : List Nat

/-- The clusterInvalidId sentinel from bsptree.go (uint16 65535). -/
def clusterInvalidId : Nat := 65535

/-! ## PVS decompression: getFacesFromCluster in bsptree.go -/

/-- Faces contributed by one non-zero (literal) PVS byte, from the
inner bit loop of getFacesFromCluster: for each of the 8 bits, if the
bit is set and the cluster `otherClusterIndex + bit` exists in the
facesInCluster map, that cluster's faces are appended.  The Go cast
ClusterId(otherClusterIndex) to uint16 is the reduction mod 65536. -/
def literalByteFaces (facesInCluster : Nat → Option (List Int)) (b : Nat)
    (otherClusterIndex : Nat) : List Int :=
  (List.range 8).foldl (fun acc bit =>
    if Nat.testBit b bit ∧
        (facesInCluster ((otherClusterIndex + bit) % 65536)).isSome = true then
      acc ++ (facesInCluster ((otherClusterIndex + bit) % 65536)).getD []
    else acc) []

/-- The PVS decompression loop of getFacesFromCluster in bsptree.go:
`v` is the read cursor into the visibility byte buffer,
`otherClusterIndex` the running cluster counter and `acc` the
accumulated visible faces.  `none` models the Go panic on an
out-of-range visibility index. -/
def decompressPVSLoop (visibilityData : List Nat)
    (facesInCluster : Nat → Option (List Int)) (numClusters : Nat)
    (v otherClusterIndex : Nat) (acc : List Int) : Option (List Int) :=
  if otherClusterIndex < numClusters then
    match hv : visibilityData.get? v with
    | none => none
    | some b =>
      if b = 0 then
        -- Zeros are run-length encoded
        match visibilityData.get? (v + 1) with
        | none => none
        | some n =>
          decompressPVSLoop visibilityData facesInCluster numClusters
            (v + 2) (otherClusterIndex + 8 * n) acc
      else
        decompressPVSLoop visibilityData facesInCluster numClusters
          (v + 1) (otherClusterIndex + 8)
          (acc ++ literalByteFaces facesInCluster b otherClusterIndex)
  else some acc
termination_by visibilityData.length - v
decreasing_by
  · have hlen : v < visibilityData.length := by
      by_contra hge
      rw [List.get?_eq_none.mpr (by omega)] at hv
      exact Option.noConfusion hv
    omega
  · have hlen : v < visibilityData.length := by
      by_contra hge
      rw [List.get?_eq_none.mpr (by omega)] at hv
      exact Option.noConfusion hv
    omega

/-- Step equation: a zero byte consumes the following byte as a repeat
count, advances the counter by 8 times that count and the cursor by
two bytes. -/
lemma pvs_step_zero (data : List Nat) (fic : Nat → Option (List Int))
    (nc v oci : Nat) (acc : List Int) (n : Nat)
    (hlt : oci < nc) (hv : data.get? v = some 0)
    (hn : data.get? (v + 1) = some n) :
    decompressPVSLoop data fic nc v oci acc =
      decompressPVSLoop data fic nc (v + 2) (oci + 8 * n) acc := by
  conv_lhs => rw [decompressPVSLoop]
  simp only [hlt, if_true]
  split
  · rename_i heq
    rw [hv] at heq
    exact absurd heq (by simp)
  · rename_i b2 heq
    rw [hv] at heq
    obtain rfl : b2 = 0 := by injection heq with h; exact h.symm
    rw [if_pos rfl]
    split
    · rename_i heq2
      rw [hn] at heq2
      exact absurd heq2 (by simp)
    · rename_i n2 heq2
      rw [hn] at heq2
      obtain rfl : n2 = n := by injection heq2 with h; exact h.symm
      rfl

/-- Step equation: a non-zero byte is a literal bitmask; the counter
advances by 8 and the cursor by one byte regardless of which bits were
set, and the corresponding clusters' faces are appended. -/
lemma pvs_step_literal (data : List Nat) (fic : Nat → Option (List Int))
    (nc v oci : Nat) (acc : List Int) (b : Nat)
    (hlt : oci < nc) (hv : data.get? v = some b) (hb : b ≠ 0) :
    decompressPVSLoop data fic nc v oci acc =
      decompressPVSLoop data fic nc (v + 1) (oci + 8)
        (acc ++ literalByteFaces fic b oci) := by
  conv_lhs => rw [decompressPVSLoop]
  simp only [hlt, if_true]
  split
  · rename_i heq
    rw [hv] at heq
    exact absurd heq (by simp)
  · rename_i b2 heq
    rw [hv] at heq
    obtain rfl : b2 = b := by injection heq with h; exact h.symm
    simp only [if_neg hb]

/-- Stop equation: the loop returns the accumulator once the counter
reaches the cluster count. -/
lemma pvs_stop (data : List Nat) (fic : Nat → Option (List Int))
    (nc v oci : Nat) (acc : List Int) (hge : ¬oci < nc) :
    decompressPVSLoop data fic nc v oci acc = some acc := by
  rw [decompressPVSLoop]
  simp only [hge, if_false]

/-- Membership in a conditional-append fold: an element is in the
result exactly when it is in the initial accumulator or contributed by
some list element satisfying the condition. -/
lemma mem_foldl_ite_append {α β : Type} (l : List β) (P : β → Prop)
    [DecidablePred P] (f : β → List α) (init : List α) (x : α) :
    (x ∈ l.foldl (fun acc b => if P b then acc ++ f b else acc) init) ↔
      x ∈ init ∨ ∃ b ∈ l, P b ∧ x ∈ f b := by
  induction l generalizing init with
  | nil => simp
  | cons b l ih =>
    simp only [List.foldl_cons, ih]
    by_cases hp : P b
    · simp [hp, List.mem_append]
      constructor
      · rintro (⟨h | h⟩ | h)
        · exact Or.inl h
        · exact Or.inr (Or.inl h)
        · exact Or.inr (Or.inr h)
      · rintro (h | h | h)
        · exact Or.inl (Or.inl h)
        · exact Or.inl (Or.inr h)
        · exact Or.inr h
    · simp [hp]

/-- Membership characterization of one literal byte's contribution:
exactly the faces of existing clusters whose bit is set, the
least-significant bit standing for the current counter value. -/
lemma mem_literalByteFaces (fic : Nat → Option (List Int)) (b oci : Nat)
    (x : Int) :
    x ∈ literalByteFaces fic b oci ↔
      ∃ bit, bit < 8 ∧ Nat.testBit b bit ∧
        ∃ l, fic ((oci + bit) % 65536) = some l ∧ x ∈ l := by
  unfold literalByteFaces
  rw [mem_foldl_ite_append]
  simp only [List.mem_range, List.not_mem_nil, false_or]
  constructor
  · rintro ⟨bit, hbit, ⟨htest, hsome⟩, hmem⟩
    obtain ⟨l, hl⟩ := Option.isSome_iff_exists.mp hsome
    refine ⟨bit, hbit, htest, l, hl, ?_⟩
    rwa [hl, Option.getD_some] at hmem
  · rintro ⟨bit, hbit, htest, l, hl, hmem⟩
    exact ⟨bit, hbit, ⟨htest, by simp [hl]⟩, by simp [hl, hmem]⟩

/-- C1: PVS row decompression follows the run-length scheme.  A zero
byte consumes the next byte as a repeat count n, advances the counter
by 8*n and the cursor by 2; a non-zero byte is a literal bitmask whose
least-significant bit stands for the current counter value, unioning
the faces of each existing cluster with a set bit, and advances the
counter by 8 and the cursor by 1 regardless of which bits were set;
and for a 32-cluster level the row [0x00, 0x03, 0x01] skips clusters
0..23 and applies the literal byte to clusters 24..31, contributing
exactly cluster 24's faces. -/
theorem C1_pvs_row_decompression :
    (∀ (data : List Nat) (fic : Nat → Option (List Int)) (nc v oci : Nat)
        (acc : List Int) (n : Nat), oci < nc → data.get? v = some 0 →
        data.get? (v + 1) = some n →
        decompressPVSLoop data fic nc v oci acc =
          decompressPVSLoop data fic nc (v + 2) (oci + 8 * n) acc) ∧
    (∀ (data : List Nat) (fic : Nat → Option (List Int)) (nc v oci : Nat)
        (acc : List Int) (b : Nat), oci < nc → data.get? v = some b → b ≠ 0 →
        decompressPVSLoop data fic nc v oci acc =
          decompressPVSLoop data fic nc (v + 1) (oci + 8)
            (acc ++ literalByteFaces fic b oci)) ∧
    (∀ (fic : Nat → Option (List Int)) (b oci : Nat) (x : Int),
        x ∈ literalByteFaces fic b oci ↔
          ∃ bit, bit < 8 ∧ Nat.testBit b bit ∧
            ∃ l, fic ((oci + bit) % 65536) = some l ∧ x ∈ l) ∧
    (∀ fic : Nat → Option (List Int),
        decompressPVSLoop [0, 3, 1] fic 32 0 0 [] = some ((fic 24).getD [])) := by
  refine ⟨pvs_step_zero, pvs_step_literal, mem_literalByteFaces, ?_⟩
  intro fic
  rw [pvs_step_zero [0, 3, 1] fic 32 0 0 [] 3 (by norm_num) rfl rfl]
  rw [pvs_step_literal [0, 3, 1] fic 32 2 24 [] 1 (by norm_num) rfl
    (by norm_num)]
  rw [pvs_stop [0, 3, 1] fic 32 3 32 _ (by norm_num)]
  rw [List.nil_append]
  have ht0 : Nat.testBit 1 0 = true := rfl
  have ht1 : Nat.testBit 1 1 = false := rfl
  have ht2 : Nat.testBit 1 2 = false := rfl
  have ht3 : Nat.testBit 1 3 = false := rfl
  have ht4 : Nat.testBit 1 4 = false := rfl
  have ht5 : Nat.testBit 1 5 = false := rfl
  have ht6 : Nat.testBit 1 6 = false := rfl
  have ht7 : Nat.testBit 1 7 = false := rfl
  cases h24 : fic 24 with
  | none =>
    simp [literalByteFaces, show List.range 8 = [0, 1, 2, 3, 4, 5, 6, 7] from
      rfl, h24, ht0, ht1, ht2, ht3, ht4, ht5, ht6, ht7]
  | some l =>
    simp [literalByteFaces, show List.range 8 = [0, 1, 2, 3, 4, 5, 6, 7] from
      rfl, h24, ht0, ht1, ht2, ht3, ht4, ht5, ht6, ht7]

/-- Witness for C1: the two step equations applied at concrete rows. -/
theorem C1_pvs_row_decompression_witness :
    (decompressPVSLoop [0, 3, 1] (fun _ => none) 32 0 0 [] =
      decompressPVSLoop [0, 3, 1] (fun _ => none) 32 2 24 []) ∧
    (decompressPVSLoop [0, 3, 1] (fun _ => none) 32 2 24 [] =
      decompressPVSLoop [0, 3, 1] (fun _ => none) 32 3 32
        ([] ++ literalByteFaces (fun _ => none) 1 24)) :=
  ⟨C1_pvs_row_decompression.1 [0, 3, 1] (fun _ => none) 32 0 0 [] 3
      (by norm_num) rfl rfl,
    C1_pvs_row_decompression.2.1 [0, 3, 1] (fun _ => none) 32 2 24 [] 1
      (by norm_num) rfl (by norm_num)⟩

/-! ## Point location: findLeafNode in bsptree.go -/

/-- The signed distance computed by one iteration of findLeafNode: a
single-coordinate subtraction when the plane's axis type is 0, 1 or 2,
otherwise the full dot product of position and normal minus the plane
distance. -/
def findLeafNodeDist (plane : Plane) (position : Fin 3 → ℚ) : ℚ :=
  if h : plane.type < 3 then
    position ⟨plane.type, h⟩ - plane.distance
  else
    (position 0 * plane.normal 0 + position 1 * plane.normal 1 +
      position 2 * plane.normal 2) - plane.distance

/-- The node walk of findLeafNode in bsptree.go, with explicit fuel to
express the unbounded Go loop.  `none` models exhausted fuel or a Go
panic on an out-of-range node or plane index; `some i` models the loop
exiting with a negative reference, after which the Go function returns
tree.TreeLeaves at the decoded leaf index i. -/
def findLeafNodeLoop (mapData : MapData) (position : Fin 3 → ℚ) :
    Nat → Int → Option Int
  | 0, _ => none
  | fuel + 1, nodeId =>
    if 0 ≤ nodeId then
      match mapData.nodes.get? nodeId.toNat with
      | none => none
      | some node =>
        match mapData.planes.get? node.plane with
        | none => none
        | some plane =>
          if findLeafNodeDist plane position < 0 then
            findLeafNodeLoop mapData position fuel node.backChild
          else
            findLeafNodeLoop mapData position fuel node.frontChild
    else some (-(nodeId + 1))

/-- C2: at every visited node the walk computes the signed distance by
the cheap axis test for plane types 0, 1 and 2 and by the full dot
product otherwise; it descends to the back child exactly when the
distance is strictly negative and to the front child otherwise (a
distance of exactly zero goes to the front child); and a negative
reference returns the leaf at index -(ref + 1). -/
theorem C2_findLeafNode_step :
    (∀ (plane : Plane) (position : Fin 3 → ℚ) (h : plane.type < 3),
      findLeafNodeDist plane position =
        position ⟨plane.type, h⟩ - plane.distance) ∧
    (∀ (plane : Plane) (position : Fin 3 → ℚ), ¬plane.type < 3 →
      findLeafNodeDist plane position =
        (position 0 * plane.normal 0 + position 1 * plane.normal 1 +
          position 2 * plane.normal 2) - plane.distance) ∧
    (∀ (md : MapData) (position : Fin 3 → ℚ) (fuel : Nat) (nodeId : Int)
        (node : BSPNode) (plane : Plane), 0 ≤ nodeId →
        md.nodes.get? nodeId.toNat = some node →
        md.planes.get? node.plane = some plane →
        (findLeafNodeDist plane position < 0 →
          findLeafNodeLoop md position (fuel + 1) nodeId =
            findLeafNodeLoop md position fuel node.backChild) ∧
        (0 ≤ findLeafNodeDist plane position →
          findLeafNodeLoop md position (fuel + 1) nodeId =
            findLeafNodeLoop md position fuel node.frontChild)) ∧
    (∀ (md : MapData) (position : Fin 3 → ℚ) (fuel : Nat) (nodeId : Int),
        nodeId < 0 →
        findLeafNodeLoop md position (fuel + 1) nodeId =
          some (-(nodeId + 1))) := by
  refine ⟨?_, ?_, ?_, ?_⟩
  · intro plane position h
    simp [findLeafNodeDist, h]
  · intro plane position h
    simp [findLeafNodeDist, h]
  · intro md position fuel nodeId node plane h0 hnode hplane
    constructor
    · intro hd
      rw [findLeafNodeLoop]
      simp only [h0, if_true, hnode, hplane, hd, if_pos]
    · intro hd
      rw [findLeafNodeLoop]
      simp only [h0, if_true, hnode, hplane, if_neg (not_lt.mpr hd)]
  · intro md position fuel nodeId hneg
    rw [findLeafNodeLoop]
    simp only [if_neg (by omega : ¬(0:Int) ≤ nodeId)]

/-- A depth certificate for the node graph of a BSP tree: every node's
plane index is valid, every nonnegative child reference is a node of
strictly smaller depth, and every negative child reference decodes to
a leaf index inside the leaf array. -/
def nodeChildOk (md : MapData) (leafCount : Nat) (depth : Nat → Nat)
    (i : Nat) (child : Int) : Prop :=
  if 0 ≤ child then
    child.toNat < md.nodes.length ∧ depth child.toNat < depth i
  else (-(child + 1)).toNat < leafCount

instance (md : MapData) (leafCount : Nat) (depth : Nat → Nat)
    (i : Nat) (child : Int) :
    Decidable (nodeChildOk md leafCount depth i child) := by
  unfold nodeChildOk; infer_instance

/-- Well-formedness of the BSP node graph reached through the node
array: the property the spec means by every branch terminating in a
leaf. -/
def wfBSPTree (md : MapData) (leafCount : Nat) (depth : Nat → Nat) : Prop :=
  ∀ i, i < md.nodes.length →
    (md.nodes.getD i ⟨0, 0, 0⟩).plane < md.planes.length ∧
    nodeChildOk md leafCount depth i (md.nodes.getD i ⟨0, 0, 0⟩).frontChild ∧
    nodeChildOk md leafCount depth i (md.nodes.getD i ⟨0, 0, 0⟩).backChild

/-- A list lookup inside the bounds returns the getD value. -/
lemma get?_eq_some_getD {α : Type} (l : List α) (i : Nat) (d : α)
    (h : i < l.length) : l.get? i = some (l.getD i d) := by
  rw [List.get?_eq_getElem?, List.getD_eq_getElem?_getD,
    List.getElem?_eq_getElem h]
  rfl

/-- On a well-formed tree the walk always reaches a leaf within fuel
bounded by the depth certificate, and the leaf index is in range. -/
lemma findLeafNodeLoop_total (md : MapData) (leafCount : Nat)
    (depth : Nat → Nat) (hwf : wfBSPTree md leafCount depth)
    (position : Fin 3 → ℚ) :
    ∀ (fuel : Nat) (ref : Int),
      (0 ≤ ref → ref.toNat < md.nodes.length → depth ref.toNat + 2 ≤ fuel →
        ∃ i : Int, findLeafNodeLoop md position fuel ref = some i ∧
          0 ≤ i ∧ i.toNat < leafCount) ∧
      (ref < 0 → (-(ref + 1)).toNat < leafCount → 1 ≤ fuel →
        ∃ i : Int, findLeafNodeLoop md position fuel ref = some i ∧
          0 ≤ i ∧ i.toNat < leafCount) := by
  intro fuel
  induction fuel with
  | zero => exact fun ref => ⟨fun _ _ h => absurd h (by omega),
      fun _ _ h => absurd h (by omega)⟩
  | succ fuel ih =>
    intro ref
    constructor
    · intro h0 hlen hdepth
      have hnode : md.nodes.get? ref.toNat =
          some (md.nodes.getD ref.toNat ⟨0, 0, 0⟩) :=
        get?_eq_some_getD md.nodes ref.toNat ⟨0, 0, 0⟩ hlen
      obtain ⟨hplane, hfront, hback⟩ := hwf ref.toNat hlen
      have hplaneGet : md.planes.get?
          (md.nodes.getD ref.toNat ⟨0, 0, 0⟩).plane =
          some (md.planes.getD (md.nodes.getD ref.toNat ⟨0, 0, 0⟩).plane
            ⟨fun _ => 0, 0, 0⟩) :=
        get?_eq_some_getD md.planes _ ⟨fun _ => 0, 0, 0⟩ hplane
      rw [findLeafNodeLoop]
      simp only [h0, if_true, hnode, hplaneGet]
      set node := md.nodes.getD ref.toNat ⟨0, 0, 0⟩ with hnodeDef
      set plane := md.planes.getD node.plane ⟨fun _ => 0, 0, 0⟩
      have hchild : ∀ child : Int, nodeChildOk md leafCount depth ref.toNat
          child →
          ∃ i : Int, findLeafNodeLoop md position fuel child = some i ∧
            0 ≤ i ∧ i.toNat < leafCount := by
        intro child hok
        unfold nodeChildOk at hok
        by_cases hsign : 0 ≤ child
        · rw [if_pos hsign] at hok
          exact (ih child).1 hsign hok.1 (by omega)
        · rw [if_neg hsign] at hok
          exact (ih child).2 (by omega) hok (by omega)
      by_cases hd : findLeafNodeDist plane position < 0
      · rw [if_pos hd]
        exact hchild node.backChild hback
      · rw [if_neg hd]
        exact hchild node.frontChild hfront
    · intro hneg hbound hfuel
      rw [findLeafNodeLoop]
      rw [if_neg (by omega : ¬(0:Int) ≤ ref)]
      exact ⟨-(ref + 1), rfl, by omega, hbound⟩

/-- C3: for every position and every valid start node of a well-formed
BSP tree the walk terminates (any fuel at least the certified depth
plus two suffices) and returns a leaf index inside [0, leafCount);
there is no failure path. -/
theorem C3_findLeafNode_terminates (md : MapData) (leafCount : Nat)
    (depth : Nat → Nat) (hwf : wfBSPTree md leafCount depth)
    (position : Fin 3 → ℚ) (startNode : Nat)
    (hstart : startNode < md.nodes.length) (fuel : Nat)
    (hfuel : depth startNode + 2 ≤ fuel) :
    ∃ i : Int, findLeafNodeLoop md position fuel (startNode : Int) = some i ∧
      0 ≤ i ∧ i.toNat < leafCount := by
  refine (findLeafNodeLoop_total md leafCount depth hwf position fuel
    (startNode : Int)).1 (by omega) ?_ ?_
  · rwa [Int.toNat_natCast]
  · rwa [Int.toNat_natCast]

/-- Witness for C3 on a one-node, two-leaf tree. -/
theorem C3_findLeafNode_terminates_witness :
    ∃ i : Int,
      findLeafNodeLoop
        ⟨[], [], [], 0, [⟨0, -1, -2⟩], [⟨fun _ => 0, 0, 0⟩], [], [], [], []⟩
        (fun _ => 0) 2 ((0 : Nat) : Int) = some i ∧ 0 ≤ i ∧ i.toNat < 2 :=
  C3_findLeafNode_terminates
    ⟨[], [], [], 0, [⟨0, -1, -2⟩], [⟨fun _ => 0, 0, 0⟩], [], [], [], []⟩
    2 (fun _ => 0)
    (by
      intro i hi
      simp only [List.length_singleton] at hi
      have hz : i = 0 := by omega
      subst hz
      refine ⟨by norm_num, by decide, by decide⟩)
    (fun _ => 0) 0 (by norm_num) 2 (by norm_num)

/-- Witness for C2 at a concrete plane, node and position. -/
theorem C2_findLeafNode_step_witness :
    (findLeafNodeDist ⟨fun _ => 0, 5, 0⟩ (fun _ => 7) = 7 - 5) ∧
    (findLeafNodeDist ⟨fun _ => 1, 5, 3⟩ (fun _ => 7) = (7 * 1 + 7 * 1 + 7 * 1) - 5) ∧
    (findLeafNodeLoop
        ⟨[], [], [], 0, [⟨0, -1, -2⟩], [⟨fun _ => 0, 0, 0⟩], [], [], [], []⟩
        (fun _ => 0) 1 0 =
      findLeafNodeLoop
        ⟨[], [], [], 0, [⟨0, -1, -2⟩], [⟨fun _ => 0, 0, 0⟩], [], [], [], []⟩
        (fun _ => 0) 0 (-1)) ∧
    (findLeafNodeLoop
        ⟨[], [], [], 0, [⟨0, -1, -2⟩], [⟨fun _ => 0, 0, 0⟩], [], [], [], []⟩
        (fun _ => 0) 1 (-2) = some 1) := by
  refine ⟨C2_findLeafNode_step.1 ⟨fun _ => 0, 5, 0⟩ (fun _ => 7) (by norm_num),
    C2_findLeafNode_step.2.1 ⟨fun _ => 1, 5, 3⟩ (fun _ => 7) (by norm_num),
    ?_, ?_⟩
  · exact (C2_findLeafNode_step.2.2.1
      ⟨[], [], [], 0, [⟨0, -1, -2⟩], [⟨fun _ => 0, 0, 0⟩], [], [], [], []⟩
      (fun _ => 0) 0 0 ⟨0, -1, -2⟩ ⟨fun _ => 0, 0, 0⟩ (by norm_num) rfl
      rfl).2 (by simp [findLeafNodeDist])
  · have h := C2_findLeafNode_step.2.2.2
      ⟨[], [], [], 0, [⟨0, -1, -2⟩], [⟨fun _ => 0, 0, 0⟩], [], [], [], []⟩
      (fun _ => 0) 0 (-2) (by norm_num)
    rw [h]
    norm_num

/-! ## Visibility-tree construction: getLeavesInCluster,
getFacesInCluster, getFacesFromCluster and getTreeLeaves in bsptree.go -/

/-- Face list of one BSP leaf, the slice of the leaf-face table at
[FirstLeafFace, FirstLeafFace + NumLeafFaces) built by
getLeavesInCluster.  An out-of-range access, which panics in Go, reads
the default 0 here; the theorems assume in-range spans. -/
def leafFaceList (md : MapData) (leaf : BSPLeaf) : List Int :=
  (List.range leaf.numLeafFaces).map
    (fun offset => md.leafFaces.getD (leaf.firstLeafFace + offset) 0)

/-- The facesInCluster map built by getFacesInCluster: for each cluster
that has at least one leaf, the concatenated faces of its leaves,
deduplicated; `none` stands for a key absent from the Go map.  The Go
code deduplicates through a set map whose iteration order is
unspecified; the embedding fixes the first-occurrence order, which has
the same membership. -/
def facesInCluster (md : MapData) (c : Nat) : Option (List Int) :=
  let ls := md.bspLeaves.filter (fun leaf => leaf.cluster == c)
  if ls.isEmpty then none
  else some ((ls.foldl (fun acc leaf => acc ++ leafFaceList md leaf) []).dedup)

/-- The facesFromCluster map built by getFacesFromCluster: the
cluster's own faces plus the faces of all clusters its decompressed
PVS row marks visible, deduplicated and numerically sorted.  The
invalid cluster is skipped (`continue`), so the map has no entry for
it; `none` also models the Go panic on a malformed PVS row. -/
def facesFromCluster (md : MapData) (c : Nat) : Option (List Int) :=
  match facesInCluster md c with
  | none => none
  | some faces =>
    if c = clusterInvalidId then none
    else
      match decompressPVSLoop md.visibilityData (facesInCluster md)
          md.visibilityOffsets.length (md.visibilityOffsets.getD c 0) 0
          faces with
      | none => none
      | some visibleFaces =>
        some (visibleFaces.dedup.mergeSort (fun a b => a ≤ b))

/-- The TreeLeaf list built by getTreeLeaves in bsptree.go: entry i is
leaf i's resolved visible-face list — facesFromCluster of the leaf's
cluster for a valid cluster (a missing Go map key reads as nil,
modelled by getD []), and the empty list for the sentinel cluster. -/
def getTreeLeaves (md : MapData) : List (List Int) :=
  (List.range md.bspLeaves.length).map (fun i =>
    let c := (md.bspLeaves.getD i ⟨0, 0, 0⟩).cluster
    if c ≠ clusterInvalidId then (facesFromCluster md c).getD []
    else [])

/-- Membership in an unconditional-append fold. -/
lemma mem_foldl_append {α β : Type} (l : List β) (f : β → List α)
    (init : List α) (x : α) :
    (x ∈ l.foldl (fun acc b => acc ++ f b) init) ↔
      x ∈ init ∨ ∃ b ∈ l, x ∈ f b := by
  induction l generalizing init with
  | nil => simp
  | cons b l ih =>
    simp only [List.foldl_cons, ih, List.mem_append]
    constructor
    · rintro (⟨h | h⟩ | h)
      · exact Or.inl h
      · exact Or.inr ⟨b, by simp, h⟩
      · obtain ⟨b2, hb2, hx⟩ := h
        exact Or.inr ⟨b2, by simp [hb2], hx⟩
    · rintro (h | ⟨b2, hb2, hx⟩)
      · exact Or.inl (Or.inl h)
      · rcases List.mem_cons.mp hb2 with rfl | hb2
        · exact Or.inl (Or.inr hx)
        · exact Or.inr ⟨b2, hb2, hx⟩

/-- Every face in a leaf's face list is an entry of the leaf-face
table, provided the leaf's span is in range. -/
lemma mem_leafFaceList (md : MapData) (leaf : BSPLeaf)
    (hspan : leaf.firstLeafFace + leaf.numLeafFaces ≤ md.leafFaces.length)
    (x : Int) (hx : x ∈ leafFaceList md leaf) : x ∈ md.leafFaces := by
  simp only [leafFaceList, List.mem_map, List.mem_range] at hx
  obtain ⟨off, hoff, rfl⟩ := hx
  have hidx : leaf.firstLeafFace + off < md.leafFaces.length := by omega
  rw [List.getD_eq_getElem md.leafFaces 0 hidx]
  exact List.getElem_mem hidx

/-- Every face in a cluster's face list comes from some leaf of the
level. -/
lemma mem_facesInCluster (md : MapData) (c : Nat) (faces : List Int)
    (hsome : facesInCluster md c = some faces) (x : Int) (hx : x ∈ faces) :
    ∃ leaf ∈ md.bspLeaves, x ∈ leafFaceList md leaf := by
  unfold facesInCluster at hsome
  by_cases hempty : (md.bspLeaves.filter (fun leaf => leaf.cluster == c)).isEmpty
  · simp only [hempty, if_true] at hsome
    exact Option.noConfusion hsome
  · simp only [hempty, if_false] at hsome
    obtain rfl := Option.some_injective _ hsome.symm
    rw [List.mem_dedup, mem_foldl_append] at hx
    rcases hx with hx | ⟨leaf, hleaf, hx⟩
    · exact absurd hx (List.not_mem_nil x)
    · exact ⟨leaf, (List.mem_filter.mp hleaf).1, hx⟩

/-- Every face accumulated by the PVS decompression loop is either in
the initial accumulator or in some cluster's face list. -/
lemma decompressPVSLoop_mem (data : List Nat)
    (fic : Nat → Option (List Int)) (nc : Nat) :
    ∀ (v oci : Nat) (acc res : List Int),
      decompressPVSLoop data fic nc v oci acc = some res →
      ∀ x ∈ res, x ∈ acc ∨ ∃ c faces, fic c = some faces ∧ x ∈ faces := by
  intro v oci acc
  induction v, oci, acc using decompressPVSLoop.induct data fic nc with
  | case1 v oci acc hlt hv =>
    intro res hres
    rw [decompressPVSLoop] at hres
    simp only [hlt, if_true] at hres
    split at hres
    · exact Option.noConfusion hres
    · rename_i b heq
      rw [hv] at heq
      exact Option.noConfusion heq
  | case2 v oci acc hlt hn hv =>
    intro res hres
    rw [decompressPVSLoop] at hres
    simp only [hlt, if_true] at hres
    split at hres
    · exact Option.noConfusion hres
    · rename_i b heq
      rw [hv] at heq
      obtain rfl : b = 0 := by injection heq with h2; exact h2.symm
      rw [if_pos rfl] at hres
      split at hres
      · exact Option.noConfusion hres
      · rename_i n heq2
        rw [hn] at heq2
        exact Option.noConfusion heq2
  | case3 v oci acc hlt n hn hv ih =>
    intro res hres
    rw [pvs_step_zero data fic nc v oci acc n hlt hv hn] at hres
    exact ih res hres
  | case4 v oci acc hlt b hv hb ih =>
    intro res hres
    rw [pvs_step_literal data fic nc v oci acc b hlt hv hb] at hres
    intro x hx
    rcases ih res hres x hx with hmem | hcl
    · rcases List.mem_append.mp hmem with hacc | hlit
      · exact Or.inl hacc
      · obtain ⟨bit, hbit, htest, l, hl, hxl⟩ :=
          (mem_literalByteFaces fic b oci x).mp hlit
        exact Or.inr ⟨(oci + bit) % 65536, l, hl, hxl⟩
    · exact Or.inr hcl
  | case5 v oci acc hge =>
    intro res hres
    rw [pvs_stop data fic nc v oci acc hge] at hres
    obtain rfl := Option.some_injective _ hres.symm
    exact fun x hx => Or.inl hx

/-- Every face of a resolved cluster list comes from some leaf of the
level: the accumulator starts as the cluster's own faces and the PVS
loop only adds faces of other clusters, which are leaf faces
themselves. -/
lemma mem_facesFromCluster (md : MapData) (c : Nat) (out : List Int)
    (hsome : facesFromCluster md c = some out) (x : Int) (hx : x ∈ out) :
    ∃ leaf ∈ md.bspLeaves, x ∈ leafFaceList md leaf := by
  unfold facesFromCluster at hsome
  cases hfic : facesInCluster md c with
  | none => rw [hfic] at hsome; exact Option.noConfusion hsome
  | some faces =>
    rw [hfic] at hsome
    dsimp only at hsome
    by_cases hc : c = clusterInvalidId
    · rw [if_pos hc] at hsome
      exact Option.noConfusion hsome
    · rw [if_neg hc] at hsome
      cases hloop : decompressPVSLoop md.visibilityData (facesInCluster md)
          md.visibilityOffsets.length (md.visibilityOffsets.getD c 0) 0
          faces with
      | none => rw [hloop] at hsome; exact Option.noConfusion hsome
      | some visibleFaces =>
        rw [hloop] at hsome
        obtain rfl := Option.some_injective _ hsome.symm
        rw [List.mem_mergeSort, List.mem_dedup] at hx
        rcases decompressPVSLoop_mem md.visibilityData (facesInCluster md)
            md.visibilityOffsets.length _ _ faces visibleFaces hloop x hx with
          hacc | ⟨c2, faces2, hc2, hx2⟩
        · exact mem_facesInCluster md c faces hfic x hacc
        · exact mem_facesInCluster md c2 faces2 hc2 x hx2

/-- Reading entry i of the resolved tree-leaf list, for i in range. -/
lemma getTreeLeaves_getD (md : MapData) (i : Nat)
    (h : i < md.bspLeaves.length) :
    (getTreeLeaves md).getD i [] =
      if (md.bspLeaves.getD i ⟨0, 0, 0⟩).cluster ≠ clusterInvalidId then
        (facesFromCluster md (md.bspLeaves.getD i ⟨0, 0, 0⟩).cluster).getD []
      else [] := by
  unfold getTreeLeaves
  rw [List.getD_eq_getElem _ _ (by simpa using h)]
  simp

/-- C4: after visibility-tree construction, every leaf with the
sentinel cluster id 65535 has an exactly empty resolved visible-face
list, and — provided the level's leaf-face table entries are valid
face indices with in-range spans, which the loader does not check —
every face index in any leaf's resolved list lies in [0, numFaces). -/
theorem C4_tree_leaves_invariant (md : MapData)
    (hfaces : ∀ x ∈ md.leafFaces, 0 ≤ x ∧ x < (md.numFaces : Int))
    (hspans : ∀ leaf ∈ md.bspLeaves,
      leaf.firstLeafFace + leaf.numLeafFaces ≤ md.leafFaces.length) :
    (∀ i, i < md.bspLeaves.length →
      (md.bspLeaves.getD i ⟨0, 0, 0⟩).cluster = clusterInvalidId →
      (getTreeLeaves md).getD i [] = []) ∧
    (∀ (i : Nat) (f : Int), f ∈ (getTreeLeaves md).getD i [] →
      0 ≤ f ∧ f < (md.numFaces : Int)) := by
  constructor
  · intro i hi hc
    rw [getTreeLeaves_getD md i hi, if_neg (not_ne_iff.mpr hc)]
  · intro i f hf
    by_cases hi : i < md.bspLeaves.length
    · rw [getTreeLeaves_getD md i hi] at hf
      by_cases hc : (md.bspLeaves.getD i ⟨0, 0, 0⟩).cluster =
          clusterInvalidId
      · rw [if_neg (not_ne_iff.mpr hc)] at hf
        exact absurd hf (List.not_mem_nil f)
      · rw [if_pos hc] at hf
        cases hffc : facesFromCluster md
            (md.bspLeaves.getD i ⟨0, 0, 0⟩).cluster with
        | none =>
          rw [hffc] at hf
          exact absurd hf (List.not_mem_nil f)
        | some out =>
          rw [hffc, Option.getD_some] at hf
          obtain ⟨leaf, hleaf, hmem⟩ :=
            mem_facesFromCluster md _ out hffc f hf
          exact hfaces f (mem_leafFaceList md leaf (hspans leaf hleaf) f hmem)
    · rw [List.getD_eq_default] at hf
      · exact absurd hf (List.not_mem_nil f)
      · unfold getTreeLeaves
        simp only [List.length_map, List.length_range]
        omega

/-- Witness for C4 on a concrete one-leaf level. -/
theorem C4_tree_leaves_invariant_witness :
    (∀ i, i < (⟨[], [], [], 2, [], [], [⟨5, 0, 1⟩], [0], [], []⟩ :
        MapData).bspLeaves.length →
      ((⟨[], [], [], 2, [], [], [⟨5, 0, 1⟩], [0], [], []⟩ :
        MapData).bspLeaves.getD i ⟨0, 0, 0⟩).cluster = clusterInvalidId →
      (getTreeLeaves
        ⟨[], [], [], 2, [], [], [⟨5, 0, 1⟩], [0], [], []⟩).getD i [] = []) ∧
    (∀ (i : Nat) (f : Int), f ∈ (getTreeLeaves
        ⟨[], [], [], 2, [], [], [⟨5, 0, 1⟩], [0], [], []⟩).getD i [] →
      0 ≤ f ∧ f < ((2 : Nat) : Int)) :=
  C4_tree_leaves_invariant ⟨[], [], [], 2, [], [], [⟨5, 0, 1⟩], [0], [], []⟩
    (by decide) (by decide)

/-! ## Geometry: getEdgeVertex in the map loader and the surface
builder of render/surface.go -/

/-- getEdgeVertex from the map loader: resolves a face-edge entry to
the start vertex of the traversed edge.  A nonnegative signed edge
index walks the edge forward (vertex V1); a negative index walks it
reversed (vertex V2 of the edge at the negated index).  Out-of-range
accesses, which panic in Go, read defaults here; the theorems assume
in-range data. -/
def getEdgeVertex (md : MapData) (faceEdgeIdx : Nat) : Vertex :=
  let edgeIdx := md.faceEdges.getD faceEdgeIdx 0
  -- Edge index is positive: return first vertex as the start of the edge
  if 0 ≤ edgeIdx then
    md.vertices.getD (md.edges.getD edgeIdx.toNat ⟨0, 0⟩).v1 ⟨0, 0, 0⟩
  -- Edge index is negative: return second vertex as the start of the edge
  else
    md.vertices.getD (md.edges.getD (-edgeIdx).toNat ⟨0, 0⟩).v2 ⟨0, 0, 0⟩

/-- C9: a positive face-edge entry resolves to vertex V1 of the edge
at that index, and a negative entry resolves to vertex V2 of the edge
at the absolute value of the index. -/
theorem C9_edge_vertex_resolution (md : MapData) (i : Nat) (e : Int)
    (he : md.faceEdges.getD i 0 = e) :
    (0 < e → getEdgeVertex md i =
      md.vertices.getD (md.edges.getD e.toNat ⟨0, 0⟩).v1 ⟨0, 0, 0⟩) ∧
    (e < 0 → getEdgeVertex md i =
      md.vertices.getD (md.edges.getD e.natAbs ⟨0, 0⟩).v2 ⟨0, 0, 0⟩) := by
  subst he
  constructor
  · intro hpos
    unfold getEdgeVertex
    rw [if_pos (by omega)]
  · intro hneg
    unfold getEdgeVertex
    rw [if_neg (by omega)]
    have habs : (-(md.faceEdges.getD i 0)).toNat =
        (md.faceEdges.getD i 0).natAbs := by omega
    rw [habs]

/-- Witness for C9 at a concrete two-entry face-edge table. -/
theorem C9_edge_vertex_resolution_witness :
    (getEdgeVertex ⟨[⟨1, 1, 1⟩, ⟨2, 2, 2⟩], [⟨0, 1⟩, ⟨1, 0⟩], [1, -1], 0,
        [], [], [], [], [], []⟩ 0 = ⟨2, 2, 2⟩) ∧
    (getEdgeVertex ⟨[⟨1, 1, 1⟩, ⟨2, 2, 2⟩], [⟨0, 1⟩, ⟨1, 0⟩], [1, -1], 0,
        [], [], [], [], [], []⟩ 1 = ⟨1, 1, 1⟩) := by
  constructor
  · rw [(C9_edge_vertex_resolution
      ⟨[⟨1, 1, 1⟩, ⟨2, 2, 2⟩], [⟨0, 1⟩, ⟨1, 0⟩], [1, -1], 0,
        [], [], [], [], [], []⟩ 0 1 rfl).1 (by norm_num)]
    rfl
  · rw [(C9_edge_vertex_resolution
      ⟨[⟨1, 1, 1⟩, ⟨2, 2, 2⟩], [⟨0, 1⟩, ⟨1, 0⟩], [1, -1], 0,
        [], [], [], [], [], []⟩ 1 (-1) rfl).2 (by norm_num)]
    rfl

/-- TexInfo from q2file: the planar texture projection axes, offsets
and flags (float32 modelled as rationals). -/
structure TexInfo where
  uAxis : Fin 3 → ℚ
  uOffset : ℚ
  vAxis : Fin 3 → ℚ
  vOffset : ℚ
  flags : Nat

/-- getTextureUV from render/surface.go: the planar u and v
coordinates of a vertex. -/
def getTextureUV (vtx : Vertex) (tex : TexInfo) : ℚ × ℚ :=
  (vtx.x * tex.uAxis 0 + vtx.y * tex.uAxis 1 + vtx.z * tex.uAxis 2 +
    tex.uOffset,
   vtx.x * tex.vAxis 0 + vtx.y * tex.vAxis 1 + vtx.z * tex.vAxis 2 +
    tex.vOffset)

/-- LightmapDimensions from render/surface.go.  Width and Height are
int32 in Go; the conversion from the float64 expression is modelled
exactly. -/
structure LightmapDimensions where
  width : Int
  height : Int
  minU : ℚ
  minV : ℚ
deriving DecidableEq

/-- The loop body of the min-max fold in getLightmapDimensions: update
(minU, minV, maxU, maxV) with the floored texture UV of one vertex. -/
def lightmapMinMaxStep (texInfo : TexInfo) (m : Int × Int × Int × Int)
    (v : Vertex) : Int × Int × Int × Int :=
  let uv := getTextureUV v texInfo
  ((if ⌊uv.1⌋ < m.1 then ⌊uv.1⌋ else m.1),
   (if ⌊uv.2⌋ < m.2.1 then ⌊uv.2⌋ else m.2.1),
   (if ⌊uv.1⌋ > m.2.2.1 then ⌊uv.1⌋ else m.2.2.1),
   (if ⌊uv.2⌋ > m.2.2.2 then ⌊uv.2⌋ else m.2.2.2))

/-- getLightmapDimensions from render/surface.go: fold the floors of
the texture UVs over the face vertices keeping (minU, minV, maxU,
maxV), then derive the lightmap rectangle size with the fixed 16-unit
texel scale.  `none` models the Go panic on an empty vertex list
(the faceVertices[0] access); the int32 conversion of the float64
width and height expressions is modelled exactly. -/
def getLightmapDimensions (faceVertices : List Vertex) (texInfo : TexInfo) :
    Option LightmapDimensions :=
  match faceVertices with
  | [] => none
  | v0 :: rest =>
    let startUV := getTextureUV v0 texInfo
    let m := rest.foldl (lightmapMinMaxStep texInfo)
      (⌊startUV.1⌋, ⌊startUV.2⌋, ⌊startUV.1⌋, ⌊startUV.2⌋)
    some
      { width := ⌈(m.2.2.1 : ℚ) / 16⌉ - ⌊(m.1 : ℚ) / 16⌋ + 1,
        height := ⌈(m.2.2.2 : ℚ) / 16⌉ - ⌊(m.2.1 : ℚ) / 16⌋ + 1,
        minU := (m.1 : ℚ),
        minV := (m.2.1 : ℚ) }

/-- The running minimum never exceeds the running maximum in the
min-max fold of getLightmapDimensions. -/
lemma lightmap_fold_min_le_max (rest : List Vertex) (texInfo : TexInfo) :
    ∀ m : Int × Int × Int × Int, m.1 ≤ m.2.2.1 → m.2.1 ≤ m.2.2.2 →
      (rest.foldl (lightmapMinMaxStep texInfo) m).1 ≤
        (rest.foldl (lightmapMinMaxStep texInfo) m).2.2.1 ∧
      (rest.foldl (lightmapMinMaxStep texInfo) m).2.1 ≤
        (rest.foldl (lightmapMinMaxStep texInfo) m).2.2.2 := by
  induction rest with
  | nil => exact fun m h1 h2 => ⟨h1, h2⟩
  | cons v rest ih =>
    intro m h1 h2
    simp only [List.foldl_cons]
    refine ih _ ?_ ?_ <;> simp only [lightmapMinMaxStep] <;>
      split <;> split <;> omega

/-- For the 16-unit texel scale, the ceiling of the larger end minus
the floor of the smaller end plus one is at least one. -/
lemma ceil_sub_floor_succ_pos (a b : Int) (h : a ≤ b) :
    1 ≤ ⌈(b : ℚ) / 16⌉ - ⌊(a : ℚ) / 16⌋ + 1 := by
  have h1 : ((a : ℚ)) / 16 ≤ ((b : ℚ)) / 16 :=
    (div_le_div_iff_of_pos_right (by norm_num)).mpr (Int.cast_le.mpr h)
  have h2 : ⌊(a : ℚ) / 16⌋ ≤ ⌈(b : ℚ) / 16⌉ :=
    le_trans (Int.floor_le_floor h1) (Int.floor_le_ceil _)
  omega

/-- C10: on a non-empty vertex list getLightmapDimensions returns a
dimension record with Width at least 1 and Height at least 1, so the
width-or-height nonpositive branch of UpdateLightmap is unreachable
for non-empty input. -/
theorem C10_lightmap_dimensions_positive (v0 : Vertex) (rest : List Vertex)
    (texInfo : TexInfo) :
    ∃ dims, getLightmapDimensions (v0 :: rest) texInfo = some dims ∧
      1 ≤ dims.width ∧ 1 ≤ dims.height ∧
      ¬(dims.height ≤ 0 ∨ dims.width ≤ 0) := by
  refine ⟨_, rfl, ?_, ?_, ?_⟩
  all_goals
    obtain ⟨hU, hV⟩ := lightmap_fold_min_le_max rest texInfo
      (⌊(getTextureUV v0 texInfo).1⌋, ⌊(getTextureUV v0 texInfo).2⌋,
       ⌊(getTextureUV v0 texInfo).1⌋, ⌊(getTextureUV v0 texInfo).2⌋)
      le_rfl le_rfl
  · exact ceil_sub_floor_succ_pos _ _ hU
  · exact ceil_sub_floor_succ_pos _ _ hV
  · have hw := ceil_sub_floor_succ_pos _ _ hU
    have hh := ceil_sub_floor_succ_pos _ _ hV
    dsimp only
    omega

/-! ## Lightmap texel brightening: CopyMapLightmapToTexture in
render/lightmap.go -/

/-- Truncation toward zero of a rational: the Go conversion int(x) of
the float32 product, modelled exactly. -/
def ratTrunc (q : ℚ) : Int := if 0 ≤ q then ⌊q⌋ else ⌈q⌉

/-- The per-texel brightening step of CopyMapLightmapToTexture: scale
the three source bytes by the fixed lightScale 4; when the maximum
scaled channel exceeds 255, rescale all three channels by the float32
quotient 255/max (modelled exactly over ℚ) and truncate.  The result
is the channel triple before the uint8 stores; the alpha byte written
alongside is the literal 255. -/
def brightenTexel (rIn gIn bIn : Nat) : Int × Int × Int :=
  let lightScale : Int := 4
  let r := (rIn : Int) * lightScale
  let g := (gIn : Int) * lightScale
  let b := (bIn : Int) * lightScale
  let mx := if r > g then r else g
  let mx2 := if b > mx then b else mx
  -- Rescale color components if any component exceeds the maximum value (255)
  if mx2 > 255 then
    let t : ℚ := 255 / (mx2 : ℚ)
    (ratTrunc ((r : ℚ) * t), ratTrunc ((g : ℚ) * t), ratTrunc ((b : ℚ) * t))
  else (r, g, b)

/-- The pixel loop of CopyMapLightmapToTexture: read three bytes per
texel starting at the read cursor, brighten, and append the four RGBA
values.  `none` models the Go panic on reading past the lightmap
byte array. -/
def copyMapLightmapPixels (lightmapData : List Nat) :
    Nat → Nat → List Int → Option (List Int)
  | 0, _, acc => some acc
  | i + 1, baseIndexRead, acc =>
    match lightmapData.get? baseIndexRead,
        lightmapData.get? (baseIndexRead + 1),
        lightmapData.get? (baseIndexRead + 2) with
    | some rB, some gB, some bB =>
      let p := brightenTexel rB gB bB
      copyMapLightmapPixels lightmapData i (baseIndexRead + 3)
        (acc ++ [p.1, p.2.1, p.2.2, 255])
    | _, _, _ => none

/-- CopyMapLightmapToTexture from render/lightmap.go, restricted to
the staging-buffer computation: the GL upload of the buffer into the
atlas texture is an external GPU call. -/
def CopyMapLightmapToTexture (arrayOffset : Nat) (lightmapData : List Nat)
    (totalPixels : Nat) : Option (List Int) :=
  copyMapLightmapPixels lightmapData totalPixels arrayOffset []

/-- Truncation of a nonnegative rational is nonnegative. -/
lemma ratTrunc_nonneg (q : ℚ) (h : 0 ≤ q) : 0 ≤ ratTrunc q := by
  unfold ratTrunc
  rw [if_pos h]
  exact Int.floor_nonneg.mpr h

/-- Truncation of a nonnegative rational at most 255 is at most 255. -/
lemma ratTrunc_le (q : ℚ) (h0 : 0 ≤ q) (h : q ≤ 255) : ratTrunc q ≤ 255 := by
  unfold ratTrunc
  rw [if_pos h0]
  have hfl : ⌊q⌋ ≤ ⌊(255 : ℚ)⌋ := Int.floor_le_floor h
  norm_num at hfl
  exact hfl

/-- A channel at most the scaled maximum, rescaled by 255/max and
truncated, stays within [0, 255]. -/
lemma clamp_channel_range (c mx2 : Int) (hc : 0 ≤ c) (hcm : c ≤ mx2)
    (hm : 255 < mx2) :
    0 ≤ ratTrunc ((c : ℚ) * (255 / (mx2 : ℚ))) ∧
      ratTrunc ((c : ℚ) * (255 / (mx2 : ℚ))) ≤ 255 := by
  have hm0 : (0 : ℚ) < (mx2 : ℚ) := by
    exact_mod_cast lt_trans (by norm_num : (0 : Int) < 255) hm
  have hq0 : 0 ≤ (c : ℚ) * (255 / (mx2 : ℚ)) := by
    apply mul_nonneg
    · exact_mod_cast hc
    · positivity
  have hq255 : (c : ℚ) * (255 / (mx2 : ℚ)) ≤ 255 := by
    have h1 : (c : ℚ) ≤ (mx2 : ℚ) := by exact_mod_cast hcm
    calc (c : ℚ) * (255 / (mx2 : ℚ))
        ≤ (mx2 : ℚ) * (255 / (mx2 : ℚ)) := by
          apply mul_le_mul_of_nonneg_right h1
          positivity
      _ = 255 := by field_simp
  exact ⟨ratTrunc_nonneg _ hq0, ratTrunc_le _ hq0 hq255⟩

/-- Each output channel of the brightening step lies in [0, 255], for
any byte inputs. -/
lemma brightenTexel_range (rIn gIn bIn : Nat) :
    (0 ≤ (brightenTexel rIn gIn bIn).1 ∧
      (brightenTexel rIn gIn bIn).1 ≤ 255) ∧
    (0 ≤ (brightenTexel rIn gIn bIn).2.1 ∧
      (brightenTexel rIn gIn bIn).2.1 ≤ 255) ∧
    (0 ≤ (brightenTexel rIn gIn bIn).2.2 ∧
      (brightenTexel rIn gIn bIn).2.2 ≤ 255) := by
  have hm1 : (if (rIn : Int) * 4 > (gIn : Int) * 4 then (rIn : Int) * 4
      else (gIn : Int) * 4) = max ((rIn : Int) * 4) ((gIn : Int) * 4) := by
    split <;> omega
  have hm2 : (if (bIn : Int) * 4 > max ((rIn : Int) * 4) ((gIn : Int) * 4)
      then (bIn : Int) * 4 else max ((rIn : Int) * 4) ((gIn : Int) * 4)) =
      max ((bIn : Int) * 4) (max ((rIn : Int) * 4) ((gIn : Int) * 4)) := by
    split <;> omega
  have hr0 : (0 : Int) ≤ (rIn : Int) * 4 := by positivity
  have hg0 : (0 : Int) ≤ (gIn : Int) * 4 := by positivity
  have hb0 : (0 : Int) ≤ (bIn : Int) * 4 := by positivity
  unfold brightenTexel
  dsimp only
  rw [hm1, hm2]
  by_cases hclamp : 255 <
      max ((bIn : Int) * 4) (max ((rIn : Int) * 4) ((gIn : Int) * 4))
  · rw [if_pos hclamp]
    exact ⟨clamp_channel_range _ _ hr0 (by omega) hclamp,
      clamp_channel_range _ _ hg0 (by omega) hclamp,
      clamp_channel_range _ _ hb0 (by omega) hclamp⟩
  · rw [if_neg hclamp]
    exact ⟨⟨hr0, show (rIn : Int) * 4 ≤ 255 by omega⟩,
      ⟨hg0, show (gIn : Int) * 4 ≤ 255 by omega⟩,
      ⟨hb0, show (bIn : Int) * 4 ≤ 255 by omega⟩⟩

/-- Every successful run of the pixel loop appends, per texel, the
three brightened channels followed by the literal alpha byte 255. -/
lemma copyMapLightmapPixels_shape (lightmapData : List Nat) :
    ∀ (n base : Nat) (acc res : List Int),
      copyMapLightmapPixels lightmapData n base acc = some res →
      ∃ texels : List (Int × Int × Int),
        res = acc ++ texels.flatMap (fun p => [p.1, p.2.1, p.2.2, 255]) ∧
        ∀ p ∈ texels, ∃ rB gB bB : Nat, p = brightenTexel rB gB bB := by
  intro n
  induction n with
  | zero =>
    intro base acc res h
    rw [copyMapLightmapPixels] at h
    obtain rfl := Option.some_injective _ h.symm
    exact ⟨[], by simp, by simp⟩
  | succ n ih =>
    intro base acc res h
    rw [copyMapLightmapPixels] at h
    split at h
    · rename_i rB gB bB hrB hgB hbB
      obtain ⟨texels, hres, htex⟩ := ih (base + 3) _ res h
      refine ⟨brightenTexel rB gB bB :: texels, ?_, ?_⟩
      · rw [hres, List.flatMap_cons, List.append_assoc]
      · intro p hp
        rcases List.mem_cons.mp hp with rfl | hp
        · exact ⟨rB, gB, bB, rfl⟩
        · exact htex p hp
    · exact Option.noConfusion h

/-- Counterexample to C7 as stated: at source bytes (75, 150, 0) the
scaled maximum is 600 > 255, so clamping occurs, and the output
(127, 255, 0) does not have the channel ratios of the pre-clamp
scaled color (300, 600, 0): 127 * 600 differs from 300 * 255. -/
theorem C7_hue_preservation_counterexample :
    255 < max ((0 : Int) * 4) (max ((75 : Int) * 4) ((150 : Int) * 4)) ∧
    brightenTexel 75 150 0 = (127, 255, 0) ∧
    ¬((brightenTexel 75 150 0).1 * ((150 : Int) * 4) =
      ((75 : Int) * 4) * (brightenTexel 75 150 0).2.1) := by
  refine ⟨by norm_num, by norm_num [brightenTexel, ratTrunc], ?_⟩
  norm_num [brightenTexel, ratTrunc]

/-- C7 (amended): for every texel processed by the brightening step
with the fixed scale factor 4, the three output channels lie in
[0, 255] and the alpha byte written is 255; and whenever clamping
occurs (the scaled maximum channel exceeds 255) each output channel is
the pre-clamp scaled channel rescaled by the common factor 255/max and
truncated toward zero, so the channel ratios of the pre-clamp scaled
color are preserved up to that integer truncation. -/
theorem C7_brighten_range (arrayOffset : Nat) :
    (∀ rIn gIn bIn : Nat,
      (0 ≤ (brightenTexel rIn gIn bIn).1 ∧
        (brightenTexel rIn gIn bIn).1 ≤ 255) ∧
      (0 ≤ (brightenTexel rIn gIn bIn).2.1 ∧
        (brightenTexel rIn gIn bIn).2.1 ≤ 255) ∧
      (0 ≤ (brightenTexel rIn gIn bIn).2.2 ∧
        (brightenTexel rIn gIn bIn).2.2 ≤ 255)) ∧
    (∀ rIn gIn bIn : Nat,
      255 < max ((bIn : Int) * 4) (max ((rIn : Int) * 4) ((gIn : Int) * 4)) →
      brightenTexel rIn gIn bIn =
        (ratTrunc (((rIn : Int) * 4 : ℚ) * (255 /
          ((max ((bIn : Int) * 4) (max ((rIn : Int) * 4) ((gIn : Int) * 4)) :
            Int) : ℚ))),
         ratTrunc (((gIn : Int) * 4 : ℚ) * (255 /
          ((max ((bIn : Int) * 4) (max ((rIn : Int) * 4) ((gIn : Int) * 4)) :
            Int) : ℚ))),
         ratTrunc (((bIn : Int) * 4 : ℚ) * (255 /
          ((max ((bIn : Int) * 4) (max ((rIn : Int) * 4) ((gIn : Int) * 4)) :
            Int) : ℚ))))) ∧
    (∀ (lightmapData : List Nat) (totalPixels : Nat) (res : List Int),
      CopyMapLightmapToTexture arrayOffset lightmapData totalPixels =
        some res →
      ∃ texels : List (Int × Int × Int),
        res = texels.flatMap (fun p => [p.1, p.2.1, p.2.2, 255]) ∧
        ∀ p ∈ texels,
          (0 ≤ p.1 ∧ p.1 ≤ 255) ∧ (0 ≤ p.2.1 ∧ p.2.1 ≤ 255) ∧
            (0 ≤ p.2.2 ∧ p.2.2 ≤ 255)) := by
  refine ⟨brightenTexel_range, ?_, ?_⟩
  · intro rIn gIn bIn hclamp
    have hmax1 : (if (rIn : Int) * 4 > (gIn : Int) * 4 then (rIn : Int) * 4
        else (gIn : Int) * 4) = max ((rIn : Int) * 4) ((gIn : Int) * 4) := by
      split <;> omega
    unfold brightenTexel
    dsimp only
    rw [hmax1]
    have hmax2 : (if (bIn : Int) * 4 > max ((rIn : Int) * 4) ((gIn : Int) * 4)
        then (bIn : Int) * 4
        else max ((rIn : Int) * 4) ((gIn : Int) * 4)) =
        max ((bIn : Int) * 4) (max ((rIn : Int) * 4) ((gIn : Int) * 4)) := by
      split <;> omega
    rw [hmax2, if_pos hclamp]
    norm_cast
  · intro lightmapData totalPixels res hres
    obtain ⟨texels, hshape, htex⟩ :=
      copyMapLightmapPixels_shape lightmapData totalPixels arrayOffset [] res
        hres
    refine ⟨texels, by simpa using hshape, ?_⟩
    intro p hp
    obtain ⟨rB, gB, bB, rfl⟩ := htex p hp
    exact brightenTexel_range rB gB bB

/-- Witness for the amended C7 at concrete texels. -/
theorem C7_brighten_range_witness :
    (brightenTexel 75 150 0 =
      (ratTrunc (((75 : Int) * 4 : ℚ) * (255 /
        ((max ((0 : Int) * 4) (max ((75 : Int) * 4) ((150 : Int) * 4)) :
          Int) : ℚ))),
       ratTrunc (((150 : Int) * 4 : ℚ) * (255 /
        ((max ((0 : Int) * 4) (max ((75 : Int) * 4) ((150 : Int) * 4)) :
          Int) : ℚ))),
       ratTrunc (((0 : Int) * 4 : ℚ) * (255 /
        ((max ((0 : Int) * 4) (max ((75 : Int) * 4) ((150 : Int) * 4)) :
          Int) : ℚ))))) ∧
    (∃ texels : List (Int × Int × Int),
      [(40 : Int), 80, 120, 255] =
        texels.flatMap (fun p => [p.1, p.2.1, p.2.2, 255]) ∧
      ∀ p ∈ texels,
        (0 ≤ p.1 ∧ p.1 ≤ 255) ∧ (0 ≤ p.2.1 ∧ p.2.1 ≤ 255) ∧
          (0 ≤ p.2.2 ∧ p.2.2 ≤ 255)) :=
  ⟨(C7_brighten_range 0).2.1 75 150 0 (by norm_num),
    (C7_brighten_range 0).2.2 [10, 20, 30] 1 [(40 : Int), 80, 120, 255]
      (by norm_num [CopyMapLightmapToTexture, copyMapLightmapPixels,
        brightenTexel, ratTrunc])⟩

/-! ## Surface building: NewSurface and UpdateLightmap in
render/surface.go -/

/-- TexturedVertex from render/surface.go: position, diffuse texture
UV and lightmap atlas UV. -/
structure TexturedVertex where
  x : ℚ
  y : ℚ
  z : ℚ
  textureU : ℚ
  textureV : ℚ
  lightU : ℚ
  lightV : ℚ
deriving DecidableEq

/-- Surface from render/surface.go. -/
structure Surface where
  texInfo : TexInfo
  texturedVertices : List TexturedVertex

/-- NewSurface from render/surface.go: every vertex starts with the
sentinel atlas UV (0.999, 0.999), the float literal modelled as the
rational 999/1000, which addresses the always-white texel reserved at
the atlas's last pixel.  The diffuse UV divides by the texture size (a
zero size, +Inf in Go, is the rational 0; no claim touches it). -/
def NewSurface (faceVertices : List Vertex) (texInfo : TexInfo)
    (textureWidth textureHeight : Nat) : Surface :=
  { texInfo := texInfo,
    texturedVertices := faceVertices.map (fun v =>
      { x := v.x, y := v.y, z := v.z,
        textureU := (getTextureUV v texInfo).1 / (textureWidth : ℚ),
        textureV := (getTextureUV v texInfo).2 / (textureHeight : ℚ),
        lightU := 999 / 1000,
        lightV := 999 / 1000 }) }

/-- The body of UpdateLightmap in render/surface.go after the
dimension computation: return unchanged on a nonpositive dimension;
allocate, and return unchanged (except the possibly split tree) when
the allocation fails; otherwise assign the atlas UVs.  The texel copy
of the success path is the GPU upload modelled separately by
CopyMapLightmapToTexture. -/
def updateLightmapRest (lightmapRoot : LightmapNode) (surface : Surface)
    (texInfo : TexInfo) (dims : LightmapDimensions) :
    Surface × LightmapNode :=
  if dims.height ≤ 0 ∨ dims.width ≤ 0 then (surface, lightmapRoot)
  else
    let alloc := AllocateLightmapRect lightmapRoot dims.width dims.height
    match alloc.2 with
    | none => (surface, alloc.1)
    | some rect =>
      ({ texInfo := surface.texInfo,
         texturedVertices := surface.texturedVertices.map (fun tv =>
           { tv with
             lightU := ((tv.x * texInfo.uAxis 0 + tv.y * texInfo.uAxis 1 +
               tv.z * texInfo.uAxis 2) + texInfo.uOffset - dims.minU +
               ((rect.x * 16 + 8 : Int) : ℚ)) /
               ((LIGHTMAP_SIZE * 16 : Int) : ℚ),
             lightV := ((tv.x * texInfo.vAxis 0 + tv.y * texInfo.vAxis 1 +
               tv.z * texInfo.vAxis 2) + texInfo.vOffset - dims.minV +
               ((rect.y * 16 + 8 : Int) : ℚ)) /
               ((LIGHTMAP_SIZE * 16 : Int) : ℚ) }) },
       alloc.1)

/-- UpdateLightmap from render/surface.go: only faces whose texinfo
flags are 0 receive a lightmap; `none` models the Go panic on an empty
vertex list inside getLightmapDimensions. -/
def UpdateLightmap (lightmapRoot : LightmapNode) (surface : Surface)
    (faceVertices : List Vertex) (texInfo : TexInfo) :
    Option (Surface × LightmapNode) :=
  -- Check if face has a lightmap
  if texInfo.flags = 0 then
    match getLightmapDimensions faceVertices texInfo with
    | none => none
    | some dims => some (updateLightmapRest lightmapRoot surface texInfo dims)
  else some (surface, lightmapRoot)

/-- C8: lightmap failure is soft and per-face.  Vertices built by
NewSurface carry the sentinel atlas UV (0.999, 0.999); on a
nonpositive computed dimension UpdateLightmap returns with the surface
untouched, and on a failed allocation it returns with the surface
untouched as well, so the vertices of a freshly built surface keep the
sentinel UV and no other vertex field changes on the failed lightmap
step. -/
theorem C8_lightmap_failure_is_soft :
    (∀ (faceVertices : List Vertex) (texInfo : TexInfo)
        (textureWidth textureHeight : Nat),
      ∀ tv ∈ (NewSurface faceVertices texInfo textureWidth
          textureHeight).texturedVertices,
        tv.lightU = 999 / 1000 ∧ tv.lightV = 999 / 1000) ∧
    (∀ (root : LightmapNode) (surface : Surface) (texInfo : TexInfo)
        (dims : LightmapDimensions), dims.height ≤ 0 ∨ dims.width ≤ 0 →
      updateLightmapRest root surface texInfo dims = (surface, root)) ∧
    (∀ (root : LightmapNode) (surface : Surface) (texInfo : TexInfo)
        (dims : LightmapDimensions), ¬(dims.height ≤ 0 ∨ dims.width ≤ 0) →
      (AllocateLightmapRect root dims.width dims.height).2 = none →
      updateLightmapRest root surface texInfo dims =
        (surface, (AllocateLightmapRect root dims.width dims.height).1)) ∧
    (∀ (root : LightmapNode) (faceVertices : List Vertex)
        (texInfo : TexInfo) (dims : LightmapDimensions)
        (textureWidth textureHeight : Nat),
      texInfo.flags = 0 →
      getLightmapDimensions faceVertices texInfo = some dims →
      (dims.height ≤ 0 ∨ dims.width ≤ 0 ∨
        (AllocateLightmapRect root dims.width dims.height).2 = none) →
      ∃ root2, UpdateLightmap root
          (NewSurface faceVertices texInfo textureWidth textureHeight)
          faceVertices texInfo =
        some (NewSurface faceVertices texInfo textureWidth textureHeight,
          root2)) := by
  have hnew : ∀ (faceVertices : List Vertex) (texInfo : TexInfo)
      (textureWidth textureHeight : Nat),
      ∀ tv ∈ (NewSurface faceVertices texInfo textureWidth
          textureHeight).texturedVertices,
        tv.lightU = 999 / 1000 ∧ tv.lightV = 999 / 1000 := by
    intro faceVertices texInfo tw th tv htv
    simp only [NewSurface, List.mem_map] at htv
    obtain ⟨v, hv, rfl⟩ := htv
    exact ⟨rfl, rfl⟩
  have hdeg : ∀ (root : LightmapNode) (surface : Surface)
      (texInfo : TexInfo) (dims : LightmapDimensions),
      dims.height ≤ 0 ∨ dims.width ≤ 0 →
      updateLightmapRest root surface texInfo dims = (surface, root) := by
    intro root surface texInfo dims hd
    unfold updateLightmapRest
    rw [if_pos hd]
  have halloc : ∀ (root : LightmapNode) (surface : Surface)
      (texInfo : TexInfo) (dims : LightmapDimensions),
      ¬(dims.height ≤ 0 ∨ dims.width ≤ 0) →
      (AllocateLightmapRect root dims.width dims.height).2 = none →
      updateLightmapRest root surface texInfo dims =
        (surface, (AllocateLightmapRect root dims.width dims.height).1) := by
    intro root surface texInfo dims hd hnone
    unfold updateLightmapRest
    rw [if_neg hd]
    simp only [hnone]
  refine ⟨hnew, hdeg, halloc, ?_⟩
  intro root faceVertices texInfo dims tw th hflags hdims hfail
  unfold UpdateLightmap
  rw [if_pos hflags, hdims]
  dsimp only
  rcases hfail with hd | hd | hnone
  · exact ⟨root, by rw [hdeg root _ texInfo dims (Or.inl hd)]⟩
  · exact ⟨root, by rw [hdeg root _ texInfo dims (Or.inr hd)]⟩
  · by_cases hd : dims.height ≤ 0 ∨ dims.width ≤ 0
    · exact ⟨root, by rw [hdeg root _ texInfo dims hd]⟩
    · exact ⟨(AllocateLightmapRect root dims.width dims.height).1,
        by rw [halloc root _ texInfo dims hd hnone]⟩

/-- Witness for C8: a degenerate dimension and a full atlas at
concrete inputs. -/
theorem C8_lightmap_failure_is_soft_witness :
    (updateLightmapRest freshLightmapRoot
      (NewSurface [⟨0, 0, 0⟩] ⟨fun _ => 0, 0, fun _ => 0, 0, 0⟩ 16 16)
      ⟨fun _ => 0, 0, fun _ => 0, 0, 0⟩ ⟨0, 5, 0, 0⟩ =
      (NewSurface [⟨0, 0, 0⟩] ⟨fun _ => 0, 0, fun _ => 0, 0, 0⟩ 16 16,
        freshLightmapRoot)) ∧
    (updateLightmapRest (.leaf ⟨0, 0, 512, 512⟩ true)
      (NewSurface [⟨0, 0, 0⟩] ⟨fun _ => 0, 0, fun _ => 0, 0, 0⟩ 16 16)
      ⟨fun _ => 0, 0, fun _ => 0, 0, 0⟩ ⟨1, 1, 0, 0⟩ =
      (NewSurface [⟨0, 0, 0⟩] ⟨fun _ => 0, 0, fun _ => 0, 0, 0⟩ 16 16,
        (AllocateLightmapRect (.leaf ⟨0, 0, 512, 512⟩ true) 1 1).1)) ∧
    (∃ root2, UpdateLightmap (.leaf ⟨0, 0, 512, 512⟩ true)
        (NewSurface [⟨0, 0, 0⟩] ⟨fun _ => 0, 0, fun _ => 0, 0, 0⟩ 16 16)
        [⟨0, 0, 0⟩] ⟨fun _ => 0, 0, fun _ => 0, 0, 0⟩ =
      some (NewSurface [⟨0, 0, 0⟩] ⟨fun _ => 0, 0, fun _ => 0, 0, 0⟩ 16 16,
        root2)) :=
  ⟨C8_lightmap_failure_is_soft.2.1 freshLightmapRoot _ _ ⟨0, 5, 0, 0⟩
      (by norm_num),
    C8_lightmap_failure_is_soft.2.2.1 (.leaf ⟨0, 0, 512, 512⟩ true) _ _
      ⟨1, 1, 0, 0⟩ (by norm_num) (by simp [AllocateLightmapRect]),
    C8_lightmap_failure_is_soft.2.2.2 (.leaf ⟨0, 0, 512, 512⟩ true) [⟨0, 0, 0⟩]
      ⟨fun _ => 0, 0, fun _ => 0, 0, 0⟩ ⟨1, 1, 0, 0⟩ 16 16 rfl
      (by norm_num [getLightmapDimensions, getTextureUV, lightmapMinMaxStep])
      (Or.inr (Or.inr (by simp [AllocateLightmapRect])))⟩

end Quake2
